import Mathlib

/-!
Verification of the stage-transition workflow engine of the
SDLC-Multi-Lingual-DevStream repository.

The repository consists of two revisions of one Streamlit application:
`src/streamlit.py` (first revision, embedded below in namespace `V1`) and
`src/streamlit_final.py` (final revision, namespace `V2`).  Each revision
holds a single mutable `SDLCState` dictionary, runs stage handlers that call
an external text-generation service (the LLM), and a module-level dispatch
that routes the record from stage to stage.

Python strings are embedded as `List Char` (`PyStr`), with the string
operations used by the source (`strip`, `lower`, `startswith`, slicing)
defined with Python's semantics.  The LLM is an external input: each handler
takes an `LLMCall` describing the outcome of the service call it would make
(`uninit` when the `llm` global is `None`, `ok content` for a reply,
`raised msg` when `llm.invoke` raises).  Handlers that do not catch
exceptions leave the session state unchanged when the call raises, because
every mutation in their bodies occurs after the `invoke` call; `V2.qa_testing`
catches the exception and `V2.deploy` catches it on its success path, and
both are embedded accordingly.

A faithful point worth noting: Python's `dict.get(key, default)` returns the
stored value whenever the key is present, even when that value is `None`, and
every `SDLCState` dictionary is created with all keys present.  Hence e.g.
`state.get('target_language', 'Python')` can yield `None`, and the handlers
that then run `language.lower()` before any other check raise
`AttributeError`, leaving the record unchanged; the embedding reproduces this
by returning the input state in that case.
-/

/-- Python strings, embedded as lists of characters. -/
abbrev PyStr := List Char

/-- The characters of a Lean string literal, used to write `PyStr` constants. -/
def pyOf (s : String) : PyStr := s.data

/-- Python `str.strip()` whitespace class (ASCII part). -/
def isWS (c : Char) : Bool :=
  c = ' ' || c = '\t' || c = '\n' || c = '\r' || c = '\x0b' || c = '\x0c'

/-- Python `str.lstrip()`. -/
def lstrip (s : PyStr) : PyStr := s.dropWhile isWS

/-- Python `str.rstrip()`. -/
def rstrip (s : PyStr) : PyStr := (s.reverse.dropWhile isWS).reverse

/-- Python `str.strip()`. -/
def strip (s : PyStr) : PyStr := rstrip (lstrip s)

/-- Python `str.lower()` (ASCII part, which is all the source uses). -/
def lower (s : PyStr) : PyStr := s.map Char.toLower

/-- Boolean list-prefix test (used for `startswith`/`endswith`). -/
def isPre : PyStr → PyStr → Bool
  | [], _ => true
  | _ :: _, [] => false
  | a :: as, b :: bs => a == b && isPre as bs

/-- Python `s.startswith(p)`. -/
def startswith (s p : PyStr) : Bool := isPre p s

/-- Python `s.endswith(p)`. -/
def endswith (s p : PyStr) : Bool := isPre p.reverse s.reverse

/-- Substring occurrence test (`needle in hay` for Python strings). -/
def listContains (needle : PyStr) : PyStr → Bool
  | [] => needle.isEmpty
  | c :: t => isPre needle (c :: t) || listContains needle t

/-- Python truthiness of an optional string: `None` and `""` are falsy. -/
def truthyOpt : Option PyStr → Bool
  | none => false
  | some s => !s.isEmpty

/-- Rendering of a possibly-`None` string in a Python f-string: `None`
prints as the text `None`. -/
def fstr : Option PyStr → PyStr
  | some v => v
  | none => pyOf "None"

/-- The shared work record (`SDLCState` TypedDict of both revisions).
`deployment_reasoning` is a key only the final revision's `deploy` adds to
the dictionary; it is `none` everywhere in the first revision. -/
structure SDLCState where
  stage : PyStr
  user_input : PyStr
  target_language : Option PyStr
  user_stories : Option PyStr
  design_docs : Option PyStr
  code : Option PyStr
  test_cases : Option PyStr
  decision : Option PyStr
  feedback : Option PyStr
  history : List (PyStr × PyStr)
  deployment_reasoning : Option PyStr
  deriving Repr, DecidableEq

/-- Outcome of the external Generation Service call a handler would make:
the `llm` global is uninitialized, the call returns `content`, or the call
raises an exception rendered as `msg`. -/
inductive LLMCall where
  | uninit
  | ok (content : PyStr)
  | raised (msg : PyStr)
  deriving Repr, DecidableEq

/-- One external trigger processed by a module-level rerun of the app:
the start button on the User Input screen, the AI-review button of a
decision stage, the manual approve button, the manual feedback submission,
or the automatic execution of the current stage's handler. -/
inductive Event where
  | start (reqs lang : PyStr)
  | aiReview (r : LLMCall)
  | manualApprove
  | manualFeedback (text : PyStr)
  | auto (r : LLMCall)
  deriving Repr, DecidableEq

/-- The fresh record built at session start and on reset (both revisions). -/
def initState : SDLCState :=
  { stage := pyOf "User Input"
    user_input := []
    target_language := none
    user_stories := none
    design_docs := none
    code := none
    test_cases := none
    decision := none
    feedback := none
    history := []
    deployment_reasoning := none }

/-- The decision values declared by the `Literal` type of the `decision`
field in `SDLCState` (both revisions, line 22 of each file). -/
def declaredDecisions : List PyStr :=
  [pyOf "approved", pyOf "feedback", pyOf "failed", pyOf "passed"]

/-- `clean_llm_code_output` (identical in both revisions): strips the text,
removes a leading code fence — the language-tagged fence when a truthy
language is supplied, else a bare one — removes a trailing fence, and strips
again. -/
def clean_llm_code_output (content : PyStr) (language : Option PyStr) : PyStr :=
  let content := strip content
  let language_tag_start :=
    strip (pyOf "```" ++ (match language with | some L => lower L | none => []))
  let content :=
    if truthyOpt language && startswith content language_tag_start then
      content.drop language_tag_start.length
    else if startswith content (pyOf "```") then
      content.drop 3
    else content
  let content :=
    if endswith content (pyOf "```") then content.take (content.length - 3)
    else content
  strip content

/-- Helper shared by the decision-stage dispatch blocks of both revisions:
after the review handler runs, the module-level code moves to `onApproved`
when `decision == 'approved'`, to `onFeedback` when `decision == 'feedback'`,
and otherwise leaves the record as the handler returned it. -/
def decisionDispatch (s : SDLCState) (onApproved onFeedback : PyStr) : SDLCState :=
  if s.decision = some (pyOf "approved") then { s with stage := onApproved }
  else if s.decision = some (pyOf "feedback") then { s with stage := onFeedback }
  else s

namespace V1

/-- `generate_user_stories` of src/streamlit.py (lines 83-107). -/
def generate_user_stories (s : SDLCState) (r : LLMCall) : SDLCState :=
  match r with
  | .ok c =>
      { s with user_stories := some c, stage := pyOf "Product Owner Review" }
  | .uninit => s
  | .raised _ => s

/-- `product_owner_review` of src/streamlit.py (lines 110-151). -/
def product_owner_review (s : SDLCState) (r : LLMCall) : SDLCState :=
  match r with
  | .ok c0 =>
      let c := lower (strip c0)
      if startswith c (pyOf "approved") then
        { s with decision := some (pyOf "approved"), feedback := none }
      else if startswith c (pyOf "feedback:") then
        { s with decision := some (pyOf "feedback"),
                 feedback := some (strip (c.drop 9)) }
      else
        { s with decision := some (pyOf "feedback"),
                 feedback := some (pyOf "LLM response unclear, please manually review and revise: \x27"
                   ++ c ++ pyOf "\x27") }
  | .uninit => s
  | .raised _ => s

/-- `revise_user_stories` of src/streamlit.py (lines 156-194). -/
def revise_user_stories (s : SDLCState) (r : LLMCall) : SDLCState :=
  if !truthyOpt s.feedback then
    { s with stage := pyOf "Product Owner Review" }
  else
    match r with
    | .ok c =>
        { s with user_stories := some c, decision := none, feedback := none,
                 stage := pyOf "Product Owner Review" }
    | .uninit => s
    | .raised _ => s

/-- `create_design_docs` of src/streamlit.py (lines 198-234). -/
def create_design_docs (s : SDLCState) (r : LLMCall) : SDLCState :=
  match r with
  | .ok c =>
      { s with design_docs := some c, stage := pyOf "Design Review" }
  | .uninit => s
  | .raised _ => s

/-- `design_review` of src/streamlit.py (lines 237-298). -/
def design_review (s : SDLCState) (r : LLMCall) : SDLCState :=
  match r with
  | .ok c0 =>
      let c := lower (strip c0)
      if startswith c (pyOf "approved") then
        { s with decision := some (pyOf "approved"), feedback := none }
      else if startswith c (pyOf "feedback:") then
        { s with decision := some (pyOf "feedback"),
                 feedback := some (strip (c.drop 9)) }
      else
        { s with decision := some (pyOf "feedback"),
                 feedback := some (pyOf "LLM response unclear, please manually review and revise: \x27"
                   ++ c ++ pyOf "\x27") }
  | .uninit => s
  | .raised _ => s

/-- `revise_design_docs` of src/streamlit.py (lines 302-333): revises when
the llm is up and feedback is truthy, skips back to Design Review when
feedback is falsy, and otherwise leaves the record unchanged. -/
def revise_design_docs (s : SDLCState) (r : LLMCall) : SDLCState :=
  if truthyOpt s.feedback then
    match r with
    | .ok c =>
        { s with design_docs := some c, decision := none, feedback := none,
                 stage := pyOf "Design Review" }
    | .uninit => s
    | .raised _ => s
  else
    { s with stage := pyOf "Design Review" }

/-- `generate_code` of src/streamlit.py (lines 338-376): with a falsy
target language it retreats to User Input before any service call. -/
def generate_code (s : SDLCState) (r : LLMCall) : SDLCState :=
  if !truthyOpt s.target_language then
    { s with stage := pyOf "User Input" }
  else
    match r with
    | .ok c =>
        { s with code := some (clean_llm_code_output c s.target_language),
                 stage := pyOf "Code Review" }
    | .uninit => s
    | .raised _ => s

/-- `code_review` of src/streamlit.py (lines 379-429).  The fallback message
interpolates `state.get('target_language', 'the specified language')`, which
is the stored value even when that value is `None` (rendered `None`). -/
def code_review (s : SDLCState) (r : LLMCall) : SDLCState :=
  match r with
  | .ok c0 =>
      let c := lower (strip c0)
      if startswith c (pyOf "approved") then
        { s with decision := some (pyOf "approved"), feedback := none }
      else if startswith c (pyOf "feedback:") then
        { s with decision := some (pyOf "feedback"),
                 feedback := some (strip (c.drop 9)) }
      else
        { s with decision := some (pyOf "feedback"),
                 feedback := some (pyOf "LLM response unclear (" ++ fstr s.target_language
                   ++ pyOf " Code Review), please manually review and revise: \x27"
                   ++ c ++ pyOf "\x27") }
  | .uninit => s
  | .raised _ => s

/-- `fix_code_review` of src/streamlit.py (lines 433-468).  The handler
computes `language.lower()` before any other check, so a `None` target
language raises and leaves the record unchanged. -/
def fix_code_review (s : SDLCState) (r : LLMCall) : SDLCState :=
  match s.target_language with
  | none => s
  | some _ =>
    if truthyOpt s.feedback then
      match r with
      | .ok c =>
          { s with code := some (clean_llm_code_output c s.target_language),
                   decision := none, feedback := none, stage := pyOf "Code Review" }
      | .uninit => s
      | .raised _ => s
    else
      { s with stage := pyOf "Code Review" }

/-- `security_review` of src/streamlit.py (lines 473-548).  With no code the
handler records feedback without touching the stage; otherwise it computes
`language.lower()` for the concern list, so a `None` target language raises;
the llm-uninitialized branch records feedback and sets the stage itself. -/
def security_review (s : SDLCState) (r : LLMCall) : SDLCState :=
  if !truthyOpt s.code then
    { s with decision := some (pyOf "feedback"),
             feedback := some (pyOf "No code available for security review.") }
  else
    match s.target_language with
    | none => s
    | some L =>
      match r with
      | .ok c0 =>
          let c := lower (strip c0)
          if startswith c (pyOf "approved") then
            { s with decision := some (pyOf "approved"), feedback := none,
                     stage := pyOf "Security Review" }
          else if startswith c (pyOf "feedback:") then
            { s with decision := some (pyOf "feedback"),
                     feedback := some (strip (c.drop 9)),
                     stage := pyOf "Security Review" }
          else
            { s with decision := some (pyOf "feedback"),
                     feedback := some (pyOf "Potential security concerns identified ("
                       ++ L ++ pyOf "): " ++ c),
                     stage := pyOf "Security Review" }
      | .uninit =>
          { s with decision := some (pyOf "feedback"),
                   feedback := some (pyOf "LLM not initialized, skipping security review."),
                   stage := pyOf "Security Review" }
      | .raised _ => s

/-- `fix_security_issues` of src/streamlit.py (lines 552-592).  The handler
computes `language.lower()` before the feedback check, so a `None` target
language raises and leaves the record unchanged. -/
def fix_security_issues (s : SDLCState) (r : LLMCall) : SDLCState :=
  match s.target_language with
  | none => s
  | some _ =>
    if !truthyOpt s.feedback then
      { s with stage := pyOf "Security Review" }
    else
      match r with
      | .ok c =>
          { s with code := some (clean_llm_code_output c s.target_language),
                   decision := none, feedback := none, stage := pyOf "Security Review" }
      | .uninit => s
      | .raised _ => s

/-- `write_test_cases` of src/streamlit.py (lines 597-651).  The handler
computes `language.lower()` for the framework suggestion before anything
else, so a `None` target language raises and leaves the record unchanged. -/
def write_test_cases (s : SDLCState) (r : LLMCall) : SDLCState :=
  match s.target_language with
  | none => s
  | some _ =>
    match r with
    | .ok c =>
        { s with test_cases := some (clean_llm_code_output c s.target_language),
                 stage := pyOf "Test Case Review" }
    | .uninit => s
    | .raised _ => s

/-- `review_test_cases` of src/streamlit.py (lines 655-726).  The framework
inference runs `language.lower()` unguarded, so a `None` target language
raises; the approval test is exact equality with `approved`, unlike the
other review handlers which test the prefix. -/
def review_test_cases (s : SDLCState) (r : LLMCall) : SDLCState :=
  match s.target_language with
  | none => s
  | some L =>
    match r with
    | .ok c0 =>
        let c := lower (strip c0)
        if c = pyOf "approved" then
          { s with decision := some (pyOf "approved"), feedback := none }
        else if startswith c (pyOf "feedback:") then
          { s with decision := some (pyOf "feedback"),
                   feedback := some (strip (c.drop 9)) }
        else
          { s with decision := some (pyOf "feedback"),
                   feedback := some (pyOf "LLM response unclear (" ++ L
                     ++ pyOf " Test Review), please manually review and revise: \x27"
                     ++ c ++ pyOf "\x27") }
    | .uninit => s
    | .raised _ => s

/-- `fix_test_cases` of src/streamlit.py (lines 730-786).  The framework
inference runs `language.lower()` unguarded, so a `None` target language
raises and leaves the record unchanged. -/
def fix_test_cases (s : SDLCState) (r : LLMCall) : SDLCState :=
  match s.target_language with
  | none => s
  | some _ =>
    if truthyOpt s.feedback then
      match r with
      | .ok c =>
          { s with test_cases := some (clean_llm_code_output c s.target_language),
                   decision := none, feedback := none, stage := pyOf "Test Case Review" }
      | .uninit => s
      | .raised _ => s
    else
      { s with stage := pyOf "Test Case Review" }

/-- `qa_testing` of src/streamlit.py (lines 791-846): with missing code or
tests it fails outright; otherwise it parses `PASS:`/`FAIL:` prefixes of the
stripped (case-sensitive) reply, and the llm-uninitialized simulation always
passes. -/
def qa_testing (s : SDLCState) (r : LLMCall) : SDLCState :=
  if !truthyOpt s.code || !truthyOpt s.test_cases then
    { s with decision := some (pyOf "failed"),
             feedback := some (pyOf "Code or test cases not found."),
             stage := pyOf "QA Testing" }
  else
    match r with
    | .ok c0 =>
        let c := strip c0
        if startswith c (pyOf "PASS:") then
          { s with decision := some (pyOf "passed"),
                   feedback := some (strip (c.drop 5)),
                   stage := pyOf "QA Testing" }
        else if startswith c (pyOf "FAIL:") then
          { s with decision := some (pyOf "failed"),
                   feedback := some (strip (c.drop 5)),
                   stage := pyOf "QA Testing" }
        else
          { s with decision := some (pyOf "failed"),
                   feedback := some (pyOf "AI QA analysis returned an unexpected response: \x27"
                     ++ c ++ pyOf "\x27. Manual review recommended."),
                   stage := pyOf "QA Testing" }
    | .uninit =>
        { s with decision := some (pyOf "passed"),
                 feedback := some (pyOf "Basic QA simulation passed."),
                 stage := pyOf "QA Testing" }
    | .raised _ => s

/-- `deploy` of src/streamlit.py (lines 849-856): unconditionally marks the
record Deployed — it consults neither `decision` nor the llm. -/
def deploy (s : SDLCState) : SDLCState :=
  { s with stage := pyOf "Deployed" }

end V1

namespace V2

/-- `generate_user_stories` of src/streamlit_final.py (lines 80-107):
as in V1, plus a history entry. -/
def generate_user_stories (s : SDLCState) (r : LLMCall) : SDLCState :=
  match r with
  | .ok c =>
      { s with user_stories := some c, stage := pyOf "Product Owner Review",
               history := s.history ++ [(pyOf "generate_user_stories", c)] }
  | .uninit => s
  | .raised _ => s

/-- `product_owner_review` of src/streamlit_final.py (lines 110-154):
as in V1, plus a history entry recording the raw reply. -/
def product_owner_review (s : SDLCState) (r : LLMCall) : SDLCState :=
  match r with
  | .ok c0 =>
      let c := lower (strip c0)
      let s' :=
        if startswith c (pyOf "approved") then
          { s with decision := some (pyOf "approved"), feedback := none }
        else if startswith c (pyOf "feedback:") then
          { s with decision := some (pyOf "feedback"),
                   feedback := some (strip (c.drop 9)) }
        else
          { s with decision := some (pyOf "feedback"),
                   feedback := some (pyOf "LLM response unclear, please manually review and revise: \x27"
                     ++ c ++ pyOf "\x27") }
      { s' with history := s'.history ++ [(pyOf "product_owner_review", c0)] }
  | .uninit => s
  | .raised _ => s

/-- `revise_user_stories` of src/streamlit_final.py (lines 159-199): the
no-feedback skip adds no history entry; a performed revision does. -/
def revise_user_stories (s : SDLCState) (r : LLMCall) : SDLCState :=
  if !truthyOpt s.feedback then
    { s with stage := pyOf "Product Owner Review" }
  else
    match r with
    | .ok c =>
        { s with user_stories := some c, decision := none, feedback := none,
                 stage := pyOf "Product Owner Review",
                 history := s.history ++ [(pyOf "revise_user_stories", c)] }
    | .uninit => s
    | .raised _ => s

/-- `create_design_docs` of src/streamlit_final.py (lines 203-241). -/
def create_design_docs (s : SDLCState) (r : LLMCall) : SDLCState :=
  match r with
  | .ok c =>
      { s with design_docs := some c, stage := pyOf "Design Review",
               history := s.history ++ [(pyOf "create_design_docs", c)] }
  | .uninit => s
  | .raised _ => s

/-- `design_review` of src/streamlit_final.py (lines 244-307). -/
def design_review (s : SDLCState) (r : LLMCall) : SDLCState :=
  match r with
  | .ok c0 =>
      let c := lower (strip c0)
      let s' :=
        if startswith c (pyOf "approved") then
          { s with decision := some (pyOf "approved"), feedback := none }
        else if startswith c (pyOf "feedback:") then
          { s with decision := some (pyOf "feedback"),
                   feedback := some (strip (c.drop 9)) }
        else
          { s with decision := some (pyOf "feedback"),
                   feedback := some (pyOf "LLM response unclear, please manually review and revise: \x27"
                     ++ c ++ pyOf "\x27") }
      { s' with history := s'.history ++ [(pyOf "design_review", c0)] }
  | .uninit => s
  | .raised _ => s

/-- `revise_design_docs` of src/streamlit_final.py (lines 311-346): unlike
V1, the no-feedback skip appends a history entry (line 341). -/
def revise_design_docs (s : SDLCState) (r : LLMCall) : SDLCState :=
  if truthyOpt s.feedback then
    match r with
    | .ok c =>
        { s with design_docs := some c, decision := none, feedback := none,
                 stage := pyOf "Design Review",
                 history := s.history ++ [(pyOf "revise_design_docs", c)] }
    | .uninit => s
    | .raised _ => s
  else
    { s with stage := pyOf "Design Review",
             history := s.history ++
               [(pyOf "revise_design_docs", pyOf "No feedback provided. Skipping design document revision.")] }

/-- `generate_code` of src/streamlit_final.py (lines 351-425). -/
def generate_code (s : SDLCState) (r : LLMCall) : SDLCState :=
  if !truthyOpt s.target_language then
    { s with stage := pyOf "User Input" }
  else
    match r with
    | .ok c =>
        let cleaned := clean_llm_code_output c s.target_language
        { s with code := some cleaned, stage := pyOf "Code Review",
                 history := s.history ++ [(pyOf "generate_code", cleaned)] }
    | .uninit => s
    | .raised _ => s

/-- `code_review` of src/streamlit_final.py (lines 428-516): the prompt asks
for `approved: [explanation]`, and the parser accepts any reply whose
lowercased strip starts with `approved`. -/
def code_review (s : SDLCState) (r : LLMCall) : SDLCState :=
  match r with
  | .ok c0 =>
      let c := lower (strip c0)
      let s' :=
        if startswith c (pyOf "approved") then
          { s with decision := some (pyOf "approved"), feedback := none }
        else if startswith c (pyOf "feedback:") then
          { s with decision := some (pyOf "feedback"),
                   feedback := some (strip (c.drop 9)) }
        else
          { s with decision := some (pyOf "feedback"),
                   feedback := some (pyOf "LLM response unclear (" ++ fstr s.target_language
                     ++ pyOf " Code Review), please manually review and revise: \x27"
                     ++ c ++ pyOf "\x27") }
      { s' with history := s'.history ++ [(pyOf "code_review", c0)] }
  | .uninit => s
  | .raised _ => s

/-- `fix_code_review` of src/streamlit_final.py (lines 520-588): like V1
(including the `language.lower()` raise on a `None` language), but both the
fixing branch and the no-feedback skip append a history entry (line 584). -/
def fix_code_review (s : SDLCState) (r : LLMCall) : SDLCState :=
  match s.target_language with
  | none => s
  | some _ =>
    if truthyOpt s.feedback then
      match r with
      | .ok c =>
          let cleaned := clean_llm_code_output c s.target_language
          { s with code := some cleaned, decision := none, feedback := none,
                   stage := pyOf "Code Review",
                   history := s.history ++ [(pyOf "fix_code_review", cleaned)] }
      | .uninit => s
      | .raised _ => s
    else
      { s with stage := pyOf "Code Review",
               history := s.history ++
                 [(pyOf "fix_code_review", pyOf "No feedback provided. Skipping code fixing.")] }

/-- `security_review` of src/streamlit_final.py (lines 593-717): as in V1,
plus a history entry in the reply branch. -/
def security_review (s : SDLCState) (r : LLMCall) : SDLCState :=
  if !truthyOpt s.code then
    { s with decision := some (pyOf "feedback"),
             feedback := some (pyOf "No code available for security review.") }
  else
    match s.target_language with
    | none => s
    | some L =>
      match r with
      | .ok c0 =>
          let c := lower (strip c0)
          let s' :=
            if startswith c (pyOf "approved") then
              { s with decision := some (pyOf "approved"), feedback := none,
                       stage := pyOf "Security Review" }
            else if startswith c (pyOf "feedback:") then
              { s with decision := some (pyOf "feedback"),
                       feedback := some (strip (c.drop 9)),
                       stage := pyOf "Security Review" }
            else
              { s with decision := some (pyOf "feedback"),
                       feedback := some (pyOf "Potential security concerns identified ("
                         ++ L ++ pyOf "): " ++ c),
                       stage := pyOf "Security Review" }
          { s' with history := s'.history ++ [(pyOf "security_review", c0)] }
      | .uninit =>
          { s with decision := some (pyOf "feedback"),
                   feedback := some (pyOf "LLM not initialized, skipping security review."),
                   stage := pyOf "Security Review" }
      | .raised _ => s

/-- `fix_security_issues` of src/streamlit_final.py (lines 721-792): the
no-feedback skip adds no history entry; a performed fix does. -/
def fix_security_issues (s : SDLCState) (r : LLMCall) : SDLCState :=
  match s.target_language with
  | none => s
  | some _ =>
    if !truthyOpt s.feedback then
      { s with stage := pyOf "Security Review" }
    else
      match r with
      | .ok c =>
          let cleaned := clean_llm_code_output c s.target_language
          { s with code := some cleaned, decision := none, feedback := none,
                   stage := pyOf "Security Review",
                   history := s.history ++ [(pyOf "fix_security_issues", cleaned)] }
      | .uninit => s
      | .raised _ => s

/-- `write_test_cases` of src/streamlit_final.py (lines 797-891). -/
def write_test_cases (s : SDLCState) (r : LLMCall) : SDLCState :=
  match s.target_language with
  | none => s
  | some _ =>
    match r with
    | .ok c =>
        let cleaned := clean_llm_code_output c s.target_language
        { s with test_cases := some cleaned, stage := pyOf "Test Case Review",
                 history := s.history ++ [(pyOf "write_test_cases", cleaned)] }
    | .uninit => s
    | .raised _ => s

/-- `review_test_cases` of src/streamlit_final.py (lines 895-1004): although
the prompt now requests `approved: [explanation]`, the parser still tests
exact equality with `approved` (line 990). -/
def review_test_cases (s : SDLCState) (r : LLMCall) : SDLCState :=
  match s.target_language with
  | none => s
  | some L =>
    match r with
    | .ok c0 =>
        let c := lower (strip c0)
        let s' :=
          if c = pyOf "approved" then
            { s with decision := some (pyOf "approved"), feedback := none }
          else if startswith c (pyOf "feedback:") then
            { s with decision := some (pyOf "feedback"),
                     feedback := some (strip (c.drop 9)) }
          else
            { s with decision := some (pyOf "feedback"),
                     feedback := some (pyOf "LLM response unclear (" ++ L
                       ++ pyOf " Test Review), please manually review and revise: \x27"
                       ++ c ++ pyOf "\x27") }
        { s' with history := s'.history ++ [(pyOf "review_test_cases", c0)] }
    | .uninit => s
    | .raised _ => s

/-- `fix_test_cases` of src/streamlit_final.py (lines 1008-1101): like V1,
but both branches append a history entry (line 1097 for the skip). -/
def fix_test_cases (s : SDLCState) (r : LLMCall) : SDLCState :=
  match s.target_language with
  | none => s
  | some _ =>
    if truthyOpt s.feedback then
      match r with
      | .ok c =>
          let cleaned := clean_llm_code_output c s.target_language
          { s with test_cases := some cleaned, decision := none, feedback := none,
                   stage := pyOf "Test Case Review",
                   history := s.history ++ [(pyOf "fix_test_cases", cleaned)] }
      | .uninit => s
      | .raised _ => s
    else
      { s with stage := pyOf "Test Case Review",
               history := s.history ++
                 [(pyOf "fix_test_cases", pyOf "No feedback provided. Skipping test case fixing.")] }

/-- `qa_testing` of src/streamlit_final.py (lines 1106-1229), with
`show_llm_details = False` (the flag is initialized to False and never set
to True anywhere in the module).  Unlike every other handler, the service
call is wrapped in try/except: an exception sets `decision = 'error'`, a
value outside the `Literal` domain of the state type. -/
def qa_testing (s : SDLCState) (r : LLMCall) : SDLCState :=
  if !truthyOpt s.code || !truthyOpt s.test_cases then
    { s with decision := some (pyOf "failed"),
             feedback := some (pyOf "Code or test cases not found."),
             stage := pyOf "QA Testing" }
  else
    match r with
    | .ok c0 =>
        let c := strip c0
        let s' :=
          if startswith c (pyOf "PASS:") then
            { s with decision := some (pyOf "passed"),
                     feedback := some (strip (c.drop 5)) }
          else if startswith c (pyOf "FAIL:") then
            { s with decision := some (pyOf "failed"),
                     feedback := some (strip (c.drop 5)) }
          else
            { s with decision := some (pyOf "failed"),
                     feedback := some (pyOf "AI QA analysis returned an unexpected response: \x27"
                       ++ c ++ pyOf "\x27. Manual review recommended.") }
        { s' with history := s'.history ++ [(pyOf "qa_testing_result", c)],
                  stage := pyOf "QA Testing" }
    | .raised e =>
        { s with decision := some (pyOf "error"),
                 feedback := some (pyOf "Error during AI QA analysis: " ++ e
                   ++ pyOf ". Manual review required."),
                 history := s.history ++ [(pyOf "qa_testing_error", e)],
                 stage := pyOf "QA Testing" }
    | .uninit =>
        { s with decision := some (pyOf "passed"),
                 feedback := some (pyOf "Basic QA simulation passed."),
                 history := s.history ++ [(pyOf "qa_testing_simulation", pyOf "Basic QA simulation passed.")],
                 stage := pyOf "QA Testing" }

/-- `deploy` of src/streamlit_final.py (lines 1231-1291).  With
`decision != 'passed'` it sets the stage to Deployment Failed and tries to
record a reason; when `feedback` is `None` the string concatenation on line
1242 raises `TypeError` after the stage assignment, which the Boolean
component reports (`true` = the call raised and did not return).  With
`decision == 'passed'` it always ends Deployed, recording a reasoning and a
history entry in every llm case (exceptions are caught). -/
def deploy (s : SDLCState) (r : LLMCall) : SDLCState × Bool :=
  if s.decision ≠ some (pyOf "passed") then
    match s.feedback with
    | some f =>
        ({ s with stage := pyOf "Deployment Failed",
                  feedback := some (pyOf "Deployment halted due to failed QA testing. Reason: " ++ f) },
         false)
    | none =>
        ({ s with stage := pyOf "Deployment Failed" }, true)
  else
    match r with
    | .ok c =>
        let reasoning := strip c
        ({ s with deployment_reasoning := some reasoning,
                  history := s.history ++ [(pyOf "deploy", reasoning)],
                  stage := pyOf "Deployed" }, false)
    | .raised e =>
        ({ s with deployment_reasoning := some (pyOf "Error during AI deployment reasoning: " ++ e),
                  history := s.history ++ [(pyOf "deploy", pyOf "Error during LLM reasoning: " ++ e)],
                  stage := pyOf "Deployed" }, false)
    | .uninit =>
        ({ s with deployment_reasoning := some (pyOf "Basic deployment simulation successful as QA passed."),
                  history := s.history ++ [(pyOf "deploy", pyOf "Basic deployment simulation successful as QA passed.")],
                  stage := pyOf "Deployed" }, false)

end V2

/-- The branches of the module-level if/elif dispatch chain, one tag per
stage screen that can mutate the record.  `terminal` covers both final
screens (Deployed and Deployment Failed, which no branch of either chain
mutates outside of reset) and stage strings no branch matches. -/
inductive StageTag where
  | userInput | genStories | poReview | revStories | createDesign | designReview
  | revDesign | genCode | codeReviewTag | fixCode | secReview | fixSec
  | writeTests | testReview | fixTests | qaTesting | deployTag | terminal
  deriving Repr, DecidableEq

/-- The if/elif chain on the literal stage strings that both module-level
dispatches perform (src/streamlit.py lines 927-1259, src/streamlit_final.py
lines 1437-1800), returning which branch is taken. -/
def stageTagOf (p : PyStr) : StageTag :=
  if p = pyOf "User Input" then .userInput
  else if p = pyOf "Generate User Stories" then .genStories
  else if p = pyOf "Product Owner Review" then .poReview
  else if p = pyOf "Revise User Stories" then .revStories
  else if p = pyOf "Create Design Docs" then .createDesign
  else if p = pyOf "Design Review" then .designReview
  else if p = pyOf "Revise Design Docs" then .revDesign
  else if p = pyOf "Generate Code" then .genCode
  else if p = pyOf "Code Review" then .codeReviewTag
  else if p = pyOf "Fix Code Review" then .fixCode
  else if p = pyOf "Security Review" then .secReview
  else if p = pyOf "Fix Security" then .fixSec
  else if p = pyOf "Write Test Cases" then .writeTests
  else if p = pyOf "Test Case Review" then .testReview
  else if p = pyOf "Fix Test Cases" then .fixTests
  else if p = pyOf "QA Testing" then .qaTesting
  else if p = pyOf "Deploy" then .deployTag
  else .terminal

/-- One turn of the first revision (module-level dispatch of src/streamlit.py,
lines 925-1273): the current stage selects the branch; decision stages act on
the AI-review or manual buttons, automatic stages run their handler on the
rerun.  Events that the current stage's screen does not offer leave the
record unchanged. -/
def turnV1 (s : SDLCState) (e : Event) : SDLCState :=
  match stageTagOf s.stage with
  | .userInput =>
    match e with
    | .start reqs lang =>
        if !reqs.isEmpty && !lang.isEmpty then
          { s with user_input := reqs,
                   target_language := some (lower (strip lang)),
                   stage := pyOf "Generate User Stories" }
        else s
    | _ => s
  | .genStories =>
    match e with | .auto r => V1.generate_user_stories s r | _ => s
  | .poReview =>
    match e with
    | .aiReview r =>
        decisionDispatch (V1.product_owner_review s r)
          (pyOf "Create Design Docs") (pyOf "Revise User Stories")
    | .manualApprove =>
        { s with decision := some (pyOf "approved"), feedback := none,
                 stage := pyOf "Create Design Docs" }
    | .manualFeedback t =>
        if !t.isEmpty then
          { s with decision := some (pyOf "feedback"), feedback := some t,
                   stage := pyOf "Revise User Stories" }
        else s
    | _ => s
  | .revStories =>
    match e with | .auto r => V1.revise_user_stories s r | _ => s
  | .createDesign =>
    match e with | .auto r => V1.create_design_docs s r | _ => s
  | .designReview =>
    match e with
    | .aiReview r =>
        decisionDispatch (V1.design_review s r)
          (pyOf "Generate Code") (pyOf "Revise Design Docs")
    | .manualApprove =>
        { s with decision := some (pyOf "approved"), feedback := none,
                 stage := pyOf "Generate Code" }
    | .manualFeedback t =>
        if !t.isEmpty then
          { s with decision := some (pyOf "feedback"), feedback := some t,
                   stage := pyOf "Revise Design Docs" }
        else s
    | _ => s
  | .revDesign =>
    match e with | .auto r => V1.revise_design_docs s r | _ => s
  | .genCode =>
    match e with | .auto r => V1.generate_code s r | _ => s
  | .codeReviewTag =>
    match e with
    | .aiReview r =>
        decisionDispatch (V1.code_review s r)
          (pyOf "Security Review") (pyOf "Fix Code Review")
    | .manualApprove =>
        { s with decision := some (pyOf "approved"), feedback := none,
                 stage := pyOf "Security Review" }
    | .manualFeedback t =>
        if !t.isEmpty then
          { s with decision := some (pyOf "feedback"), feedback := some t,
                   stage := pyOf "Fix Code Review" }
        else s
    | _ => s
  | .fixCode =>
    match e with | .auto r => V1.fix_code_review s r | _ => s
  | .secReview =>
    match e with
    | .aiReview r =>
        decisionDispatch (V1.security_review s r)
          (pyOf "Write Test Cases") (pyOf "Fix Security")
    | .manualApprove =>
        { s with decision := some (pyOf "approved"), feedback := none,
                 stage := pyOf "Write Test Cases" }
    | .manualFeedback t =>
        if !t.isEmpty then
          { s with decision := some (pyOf "feedback"), feedback := some t,
                   stage := pyOf "Fix Security" }
        else s
    | _ => s
  | .fixSec =>
    match e with | .auto r => V1.fix_security_issues s r | _ => s
  | .writeTests =>
    match e with | .auto r => V1.write_test_cases s r | _ => s
  | .testReview =>
    match e with
    | .aiReview r =>
        decisionDispatch (V1.review_test_cases s r)
          (pyOf "QA Testing") (pyOf "Fix Test Cases")
    | .manualApprove =>
        { s with decision := some (pyOf "approved"), feedback := none,
                 stage := pyOf "QA Testing" }
    | .manualFeedback t =>
        if !t.isEmpty then
          { s with decision := some (pyOf "feedback"), feedback := some t,
                   stage := pyOf "Fix Test Cases" }
        else s
    | _ => s
  | .fixTests =>
    match e with | .auto r => V1.fix_test_cases s r | _ => s
  | .qaTesting =>
    match e with
    | .auto r =>
        let s2 := V1.qa_testing s r
        if s2.decision = some (pyOf "passed") then { s2 with stage := pyOf "Deploy" }
        else { s2 with stage := pyOf "Code Review" }
    | _ => s
  | .deployTag =>
    match e with
    | .auto _ => { V1.deploy s with stage := pyOf "Deployed" }
    | _ => s
  | .terminal => s

/-- One turn of the final revision (module-level dispatch of
src/streamlit_final.py, lines 1435-1815).  Differences from `turnV1`: a
failed QA run loops back to Generate Code rather than Code Review, and the
Deploy branch overwrites the stage with Deployed whenever `deploy` returns
normally (the overwrite on line 1792 runs unconditionally after the call). -/
def turnV2 (s : SDLCState) (e : Event) : SDLCState :=
  match stageTagOf s.stage with
  | .userInput =>
    match e with
    | .start reqs lang =>
        if !reqs.isEmpty && !lang.isEmpty then
          { s with user_input := reqs,
                   target_language := some (lower (strip lang)),
                   stage := pyOf "Generate User Stories" }
        else s
    | _ => s
  | .genStories =>
    match e with | .auto r => V2.generate_user_stories s r | _ => s
  | .poReview =>
    match e with
    | .aiReview r =>
        decisionDispatch (V2.product_owner_review s r)
          (pyOf "Create Design Docs") (pyOf "Revise User Stories")
    | .manualApprove =>
        { s with decision := some (pyOf "approved"), feedback := none,
                 stage := pyOf "Create Design Docs" }
    | .manualFeedback t =>
        if !t.isEmpty then
          { s with decision := some (pyOf "feedback"), feedback := some t,
                   stage := pyOf "Revise User Stories" }
        else s
    | _ => s
  | .revStories =>
    match e with | .auto r => V2.revise_user_stories s r | _ => s
  | .createDesign =>
    match e with | .auto r => V2.create_design_docs s r | _ => s
  | .designReview =>
    match e with
    | .aiReview r =>
        decisionDispatch (V2.design_review s r)
          (pyOf "Generate Code") (pyOf "Revise Design Docs")
    | .manualApprove =>
        { s with decision := some (pyOf "approved"), feedback := none,
                 stage := pyOf "Generate Code" }
    | .manualFeedback t =>
        if !t.isEmpty then
          { s with decision := some (pyOf "feedback"), feedback := some t,
                   stage := pyOf "Revise Design Docs" }
        else s
    | _ => s
  | .revDesign =>
    match e with | .auto r => V2.revise_design_docs s r | _ => s
  | .genCode =>
    match e with | .auto r => V2.generate_code s r | _ => s
  | .codeReviewTag =>
    match e with
    | .aiReview r =>
        decisionDispatch (V2.code_review s r)
          (pyOf "Security Review") (pyOf "Fix Code Review")
    | .manualApprove =>
        { s with decision := some (pyOf "approved"), feedback := none,
                 stage := pyOf "Security Review" }
    | .manualFeedback t =>
        if !t.isEmpty then
          { s with decision := some (pyOf "feedback"), feedback := some t,
                   stage := pyOf "Fix Code Review" }
        else s
    | _ => s
  | .fixCode =>
    match e with | .auto r => V2.fix_code_review s r | _ => s
  | .secReview =>
    match e with
    | .aiReview r =>
        decisionDispatch (V2.security_review s r)
          (pyOf "Write Test Cases") (pyOf "Fix Security")
    | .manualApprove =>
        { s with decision := some (pyOf "approved"), feedback := none,
                 stage := pyOf "Write Test Cases" }
    | .manualFeedback t =>
        if !t.isEmpty then
          { s with decision := some (pyOf "feedback"), feedback := some t,
                   stage := pyOf "Fix Security" }
        else s
    | _ => s
  | .fixSec =>
    match e with | .auto r => V2.fix_security_issues s r | _ => s
  | .writeTests =>
    match e with | .auto r => V2.write_test_cases s r | _ => s
  | .testReview =>
    match e with
    | .aiReview r =>
        decisionDispatch (V2.review_test_cases s r)
          (pyOf "QA Testing") (pyOf "Fix Test Cases")
    | .manualApprove =>
        { s with decision := some (pyOf "approved"), feedback := none,
                 stage := pyOf "QA Testing" }
    | .manualFeedback t =>
        if !t.isEmpty then
          { s with decision := some (pyOf "feedback"), feedback := some t,
                   stage := pyOf "Fix Test Cases" }
        else s
    | _ => s
  | .fixTests =>
    match e with | .auto r => V2.fix_test_cases s r | _ => s
  | .qaTesting =>
    match e with
    | .auto r =>
        let s2 := V2.qa_testing s r
        if s2.decision = some (pyOf "passed") then { s2 with stage := pyOf "Deploy" }
        else { s2 with stage := pyOf "Generate Code" }
    | _ => s
  | .deployTag =>
    match e with
    | .auto r =>
        let p := V2.deploy s r
        if p.2 then p.1 else { p.1 with stage := pyOf "Deployed" }
    | _ => s
  | .terminal => s

/-- The stage names enumerated by the transition table of section 4 of the
specification, written as the strings the code uses. -/
def stageNames : List PyStr :=
  [pyOf "User Input", pyOf "Generate User Stories", pyOf "Product Owner Review",
   pyOf "Revise User Stories", pyOf "Create Design Docs", pyOf "Design Review",
   pyOf "Revise Design Docs", pyOf "Generate Code", pyOf "Code Review",
   pyOf "Fix Code Review", pyOf "Security Review", pyOf "Fix Security",
   pyOf "Write Test Cases", pyOf "Test Case Review", pyOf "Fix Test Cases",
   pyOf "QA Testing", pyOf "Deploy", pyOf "Deployed", pyOf "Deployment Failed"]

/-- Modelled from the spec: the declared successors of each stage in the
transition table of section 4 (the "On success" and "On missing
precondition" columns), together with the stay-put self-loop that claim C1
allows for every stage (the table's "stays" entry, the automatic-stage
contract's "leave `stage` unchanged" on service failure, and a decision
stage not advancing without a verdict). -/
def specSuccessorsWithStay (stg : PyStr) : List PyStr :=
  if stg = pyOf "User Input" then
    [pyOf "Generate User Stories", pyOf "User Input"]
  else if stg = pyOf "Generate User Stories" then
    [pyOf "Product Owner Review", pyOf "Generate User Stories"]
  else if stg = pyOf "Product Owner Review" then
    [pyOf "Create Design Docs", pyOf "Revise User Stories", pyOf "Product Owner Review"]
  else if stg = pyOf "Revise User Stories" then
    [pyOf "Product Owner Review", pyOf "Revise User Stories"]
  else if stg = pyOf "Create Design Docs" then
    [pyOf "Design Review", pyOf "Create Design Docs"]
  else if stg = pyOf "Design Review" then
    [pyOf "Generate Code", pyOf "Revise Design Docs", pyOf "Design Review"]
  else if stg = pyOf "Revise Design Docs" then
    [pyOf "Design Review", pyOf "Revise Design Docs"]
  else if stg = pyOf "Generate Code" then
    [pyOf "Code Review", pyOf "User Input", pyOf "Generate Code"]
  else if stg = pyOf "Code Review" then
    [pyOf "Security Review", pyOf "Fix Code Review", pyOf "Code Review"]
  else if stg = pyOf "Fix Code Review" then
    [pyOf "Code Review", pyOf "Fix Code Review"]
  else if stg = pyOf "Security Review" then
    [pyOf "Write Test Cases", pyOf "Fix Security", pyOf "Security Review"]
  else if stg = pyOf "Fix Security" then
    [pyOf "Security Review", pyOf "Fix Security"]
  else if stg = pyOf "Write Test Cases" then
    [pyOf "Test Case Review", pyOf "Write Test Cases"]
  else if stg = pyOf "Test Case Review" then
    [pyOf "QA Testing", pyOf "Fix Test Cases", pyOf "Test Case Review"]
  else if stg = pyOf "Fix Test Cases" then
    [pyOf "Test Case Review", pyOf "Fix Test Cases"]
  else if stg = pyOf "QA Testing" then
    [pyOf "Deploy", pyOf "Generate Code", pyOf "QA Testing"]
  else if stg = pyOf "Deploy" then
    [pyOf "Deployed", pyOf "Deployment Failed", pyOf "Deploy"]
  else if stg = pyOf "Deployed" then
    [pyOf "Deployed"]
  else if stg = pyOf "Deployment Failed" then
    [pyOf "Deployment Failed"]
  else []

/-- A concrete record sitting at QA Testing with no code, used to exercise
the QA missing-precondition path. -/
def qaNoCodeRecord : SDLCState :=
  { initState with stage := pyOf "QA Testing" }

/-- A concrete record sitting at QA Testing with code and tests present. -/
def qaReadyRecord : SDLCState :=
  { initState with
      stage := pyOf "QA Testing"
      target_language := some (pyOf "python")
      code := some (pyOf "print(1)")
      test_cases := some (pyOf "assert True") }

/-- A concrete record entering Deploy after a failed QA with recorded
feedback. -/
def deployFailedRecord : SDLCState :=
  { initState with
      stage := pyOf "Deploy"
      decision := some (pyOf "failed")
      feedback := some (pyOf "bad tests") }

/-- A concrete record at a review screen with a language and code set. -/
def reviewRecord : SDLCState :=
  { initState with
      stage := pyOf "Code Review"
      target_language := some (pyOf "python")
      code := some (pyOf "print(1)")
      test_cases := some (pyOf "assert True")
      user_stories := some (pyOf "As a user, I want X")
      design_docs := some (pyOf "a design") }

/-- A concrete record at a revision screen with reviewer feedback present. -/
def fbRecord : SDLCState :=
  { initState with
      stage := pyOf "Fix Code Review"
      target_language := some (pyOf "python")
      code := some (pyOf "print(1)")
      decision := some (pyOf "feedback")
      feedback := some (pyOf "needs work") }

/-- A concrete record at a revision screen with no feedback recorded. -/
def skipRecord : SDLCState :=
  { initState with
      stage := pyOf "Revise Design Docs"
      target_language := some (pyOf "python")
      feedback := none }

/-- The records reachable in a session of the first revision: the fresh
record, everything a turn produces from a reachable record, and the record
the reset button rebuilds (which is the fresh record again). -/
inductive ReachableV1 : SDLCState → Prop where
  | init : ReachableV1 initState
  | step (s : SDLCState) (e : Event) : ReachableV1 s → ReachableV1 (turnV1 s e)
  | reset (s : SDLCState) : ReachableV1 s → ReachableV1 initState

theorem isPre_self_append (n q : PyStr) : isPre n (n ++ q) = true := by
  induction n with
  | nil => rfl
  | cons a m ih => simp [isPre, ih]

theorem listContains_nil (l : PyStr) : listContains [] l = true := by
  cases l with
  | nil => rfl
  | cons c t => simp [listContains, isPre]

theorem listContains_append (p n q : PyStr) : listContains n (p ++ n ++ q) = true := by
  induction p with
  | nil =>
      cases n with
      | nil => simp [listContains_nil q]
      | cons a m =>
          have h := isPre_self_append (a :: m) q
          simp [listContains]
          left
          simpa using h
  | cons c p' ih =>
      have h : listContains n (p' ++ (n ++ q)) = true := by
        simpa [List.append_assoc] using ih
      simp [listContains, h]

theorem lstrip_append (a b : PyStr) :
    lstrip (a ++ b) = if lstrip a = [] then lstrip b else lstrip a ++ b := by
  induction a with
  | nil => simp [lstrip]
  | cons c a' ih =>
      by_cases h : isWS c = true
      · simpa [lstrip, List.dropWhile, h] using ih
      · simp [lstrip, List.dropWhile, Bool.not_eq_true] at h ⊢
        simp [h]

theorem rstrip_append (a b : PyStr) :
    rstrip (a ++ b) = if rstrip b = [] then rstrip a else a ++ rstrip b := by
  have h := lstrip_append b.reverse a.reverse
  simp only [lstrip] at h
  simp only [rstrip, List.reverse_append, h]
  by_cases hb : List.dropWhile isWS b.reverse = []
  · simp [hb]
  · have hb' : (List.dropWhile isWS b.reverse).reverse ≠ [] := by simpa using hb
    simp [hb, hb']

theorem lstrip_all_ws {w : PyStr} (h : ∀ c ∈ w, isWS c = true) : lstrip w = [] := by
  induction w with
  | nil => rfl
  | cons c t ih =>
      have hc := h c (by simp)
      simp [lstrip, List.dropWhile, hc]
      simpa [lstrip] using ih (fun d hd => h d (by simp [hd]))

theorem lstrip_ws_left {w : PyStr} (l : PyStr) (h : ∀ c ∈ w, isWS c = true) :
    lstrip (w ++ l) = lstrip l := by
  rw [lstrip_append, lstrip_all_ws h]
  simp

theorem strip_ws_left {w : PyStr} (l : PyStr) (h : ∀ c ∈ w, isWS c = true) :
    strip (w ++ l) = strip l := by
  unfold strip
  rw [lstrip_ws_left l h]

theorem rstrip_all_ws {w : PyStr} (h : ∀ c ∈ w, isWS c = true) : rstrip w = [] := by
  unfold rstrip
  have : List.dropWhile isWS w.reverse = [] := by
    have h2 : ∀ c ∈ w.reverse, isWS c = true := fun c hc => h c (by simp at hc; exact hc)
    simpa [lstrip] using lstrip_all_ws h2
  simp [this]

theorem rstrip_ws_suffix {w : PyStr} (l : PyStr) (h : ∀ c ∈ w, isWS c = true) :
    rstrip (l ++ w) = rstrip l := by
  rw [rstrip_append, rstrip_all_ws h]
  simp

theorem strip_ws_suffix {w : PyStr} (l : PyStr) (h : ∀ c ∈ w, isWS c = true) :
    strip (l ++ w) = strip l := by
  unfold strip
  rw [lstrip_append]
  by_cases hl : lstrip l = []
  · simp [hl, lstrip_all_ws h, rstrip_all_ws h]
  · simp [hl, rstrip_ws_suffix _ h]

theorem takeWhile_mem_ws {p : Char → Bool} {l : PyStr} {c : Char}
    (h : c ∈ List.takeWhile p l) : p c = true := by
  induction l with
  | nil => simp [List.takeWhile] at h
  | cons a t ih =>
      by_cases ha : p a = true
      · rw [List.takeWhile_cons, if_pos ha] at h
        rcases List.mem_cons.mp h with rfl | h'
        · exact ha
        · exact ih h'
      · rw [List.takeWhile_cons, if_neg ha] at h
        simp at h

theorem rstrip_decomp (l : PyStr) :
    ∃ w, l = rstrip l ++ w ∧ ∀ c ∈ w, isWS c = true := by
  refine ⟨(List.takeWhile isWS l.reverse).reverse, ?_, ?_⟩
  · simp only [rstrip]
    calc l = l.reverse.reverse := (l.reverse_reverse).symm
      _ = (List.takeWhile isWS l.reverse ++ List.dropWhile isWS l.reverse).reverse := by
            rw [List.takeWhile_append_dropWhile]
      _ = (List.dropWhile isWS l.reverse).reverse ++ (List.takeWhile isWS l.reverse).reverse := by
            rw [List.reverse_append]
  · intro c hc
    exact takeWhile_mem_ws (by simpa using hc)

theorem endswith_append (x p : PyStr) : endswith (x ++ p) p = true := by
  unfold endswith
  rw [List.reverse_append]
  exact isPre_self_append p.reverse x.reverse

theorem drop_len_append (x y : PyStr) : (x ++ y).drop x.length = y := by
  induction x with
  | nil => simp
  | cons c t ih => simp [ih]

theorem take_len_append (x y : PyStr) : (x ++ y).take x.length = x := by
  induction x with
  | nil => simp
  | cons c t ih => simp [ih]

theorem strip_fenced (mid : PyStr) :
    strip (pyOf "```" ++ (mid ++ pyOf "```")) = pyOf "```" ++ (mid ++ pyOf "```") := by
  have h1 : lstrip (pyOf "```" ++ (mid ++ pyOf "```")) = pyOf "```" ++ (mid ++ pyOf "```") := by
    rw [lstrip_append]
    rw [if_neg (by decide)]
    rw [show lstrip (pyOf "```") = pyOf "```" from by decide]
  have h2 : rstrip (pyOf "```" ++ (mid ++ pyOf "```")) = pyOf "```" ++ (mid ++ pyOf "```") := by
    rw [show pyOf "```" ++ (mid ++ pyOf "```") = (pyOf "```" ++ mid) ++ pyOf "```" from by
      rw [List.append_assoc]]
    rw [rstrip_append]
    rw [if_neg (by decide)]
    rw [show rstrip (pyOf "```") = pyOf "```" from by decide]
  unfold strip
  rw [h1, h2]

theorem chop_fence (m : PyStr) :
    (if endswith (m ++ pyOf "```") (pyOf "```") then
       (m ++ pyOf "```").take ((m ++ pyOf "```").length - (pyOf "```").length)
     else (m ++ pyOf "```")) = m := by
  rw [if_pos (endswith_append m (pyOf "```"))]
  rw [List.length_append]
  rw [Nat.add_sub_cancel, take_len_append]

theorem strip_mid (w s : PyStr) (hw : ∀ c ∈ w, isWS c = true) :
    strip (w ++ (pyOf "\n" ++ (s ++ pyOf "\n"))) = strip s := by
  rw [show w ++ (pyOf "\n" ++ (s ++ pyOf "\n")) = (w ++ pyOf "\n") ++ (s ++ pyOf "\n") from by
    rw [List.append_assoc]]
  have hw' : ∀ c ∈ w ++ pyOf "\n", isWS c = true := by
    intro c hc
    rcases List.mem_append.mp hc with h | h
    · exact hw c h
    · have : c = '\n' := by simpa [pyOf] using h
      subst this
      decide
  rw [strip_ws_left _ hw']
  refine strip_ws_suffix _ ?_
  intro c hc
  have hcn : c = '\n' := by simpa [pyOf] using hc
  subst hcn
  decide

theorem tag_eq_of_lower (x : PyStr) :
    strip (pyOf "```" ++ x) = pyOf "```" ++ rstrip x := by
  have h1 : lstrip (pyOf "```" ++ x) = pyOf "```" ++ x := by
    rw [lstrip_append, if_neg (by decide),
        show lstrip (pyOf "```") = pyOf "```" from by decide]
  unfold strip
  rw [h1, rstrip_append]
  by_cases hx : rstrip x = []
  · rw [if_pos hx, hx, show rstrip (pyOf "```") = pyOf "```" from by decide]
    simp
  · rw [if_neg hx]

theorem clean_bare_fence (s : PyStr) :
    clean_llm_code_output (pyOf "```" ++ pyOf "\n" ++ s ++ pyOf "\n" ++ pyOf "```") none
      = strip s := by
  rw [show pyOf "```" ++ pyOf "\n" ++ s ++ pyOf "\n" ++ pyOf "```"
        = pyOf "```" ++ ((pyOf "\n" ++ (s ++ pyOf "\n")) ++ pyOf "```") from by
      simp [List.append_assoc]]
  simp only [clean_llm_code_output]
  rw [strip_fenced]
  have hc1 : (truthyOpt none &&
      startswith (pyOf "```" ++ ((pyOf "\n" ++ (s ++ pyOf "\n")) ++ pyOf "```"))
        (strip (pyOf "```" ++ []))) = false := by simp [truthyOpt]
  have hc2 : startswith (pyOf "```" ++ ((pyOf "\n" ++ (s ++ pyOf "\n")) ++ pyOf "```"))
      (pyOf "```") = true := isPre_self_append (pyOf "```") _
  simp only [hc1, hc2, Bool.false_eq_true, if_false, if_true]
  rw [show (3 : Nat) = (pyOf "```").length from by decide]
  rw [drop_len_append]
  rw [chop_fence]
  rw [strip_ws_left (s ++ pyOf "\n") (by decide)]
  exact strip_ws_suffix s (by decide)

theorem clean_lang_fence (s L : PyStr) (hL : L ≠ []) :
    clean_llm_code_output (pyOf "```" ++ lower L ++ pyOf "\n" ++ s ++ pyOf "\n" ++ pyOf "```")
      (some L) = strip s := by
  obtain ⟨w, hdecomp, hws⟩ := rstrip_decomp (lower L)
  have hLt : truthyOpt (some L) = true := by
    cases L with
    | nil => exact absurd rfl hL
    | cons a t => rfl
  simp only [clean_llm_code_output]
  rw [tag_eq_of_lower (lower L)]
  set T := rstrip (lower L) with hT
  rw [show pyOf "```" ++ lower L ++ pyOf "\n" ++ s ++ pyOf "\n" ++ pyOf "```"
        = (pyOf "```" ++ T) ++ ((w ++ (pyOf "\n" ++ (s ++ pyOf "\n"))) ++ pyOf "```") from by
      rw [hdecomp]
      simp [List.append_assoc]]
  have h1 : strip ((pyOf "```" ++ T) ++ ((w ++ (pyOf "\n" ++ (s ++ pyOf "\n"))) ++ pyOf "```"))
      = (pyOf "```" ++ T) ++ ((w ++ (pyOf "\n" ++ (s ++ pyOf "\n"))) ++ pyOf "```") := by
    rw [show (pyOf "```" ++ T) ++ ((w ++ (pyOf "\n" ++ (s ++ pyOf "\n"))) ++ pyOf "```")
          = pyOf "```" ++ ((T ++ (w ++ (pyOf "\n" ++ (s ++ pyOf "\n")))) ++ pyOf "```") from by
        simp [List.append_assoc]]
    exact strip_fenced _
  rw [h1]
  rw [if_pos (show (truthyOpt (some L) &&
        startswith ((pyOf "```" ++ T) ++ ((w ++ (pyOf "\n" ++ (s ++ pyOf "\n"))) ++ pyOf "```"))
          (pyOf "```" ++ T)) = true from by
      rw [hLt, Bool.true_and]
      exact isPre_self_append _ _)]
  rw [drop_len_append]
  rw [show (3 : Nat) = (pyOf "```").length from by decide]
  rw [chop_fence]
  exact strip_mid w s hws

/-- The final revision's turn lands in a declared successor when the record
sits at stage User Input. -/
theorem turnV2_spec_user_input (s : SDLCState) (e : Event)
    (h : s.stage = pyOf "User Input") :
    (turnV2 s e).stage ∈ specSuccessorsWithStay s.stage := by
  obtain ⟨stg, ui, tl, us, dd, cd, tc, dec, fb, hist, dr⟩ := s
  simp only at h
  subst h
  have ht : stageTagOf (pyOf "User Input") = StageTag.userInput := by decide
  simp only [turnV2, ht]
  cases e
  all_goals try dsimp only
  all_goals repeat' split
  all_goals try dsimp only
  all_goals decide

/-- The final revision's turn lands in a declared successor when the record
sits at stage Generate User Stories. -/
theorem turnV2_spec_generate_user_stories (s : SDLCState) (e : Event)
    (h : s.stage = pyOf "Generate User Stories") :
    (turnV2 s e).stage ∈ specSuccessorsWithStay s.stage := by
  obtain ⟨stg, ui, tl, us, dd, cd, tc, dec, fb, hist, dr⟩ := s
  simp only at h
  subst h
  have ht : stageTagOf (pyOf "Generate User Stories") = StageTag.genStories := by decide
  simp only [turnV2, ht]
  cases e
  all_goals try unfold V2.generate_user_stories
  all_goals try dsimp only
  all_goals repeat' split
  all_goals try dsimp only
  all_goals decide

/-- The final revision's turn lands in a declared successor when the record
sits at stage Product Owner Review. -/
theorem turnV2_spec_product_owner_review (s : SDLCState) (e : Event)
    (h : s.stage = pyOf "Product Owner Review") :
    (turnV2 s e).stage ∈ specSuccessorsWithStay s.stage := by
  obtain ⟨stg, ui, tl, us, dd, cd, tc, dec, fb, hist, dr⟩ := s
  simp only at h
  subst h
  have ht : stageTagOf (pyOf "Product Owner Review") = StageTag.poReview := by decide
  simp only [turnV2, ht]
  cases e
  all_goals try unfold V2.product_owner_review decisionDispatch
  all_goals try dsimp only
  all_goals repeat' split
  all_goals try dsimp only
  all_goals decide

/-- The final revision's turn lands in a declared successor when the record
sits at stage Revise User Stories. -/
theorem turnV2_spec_revise_user_stories (s : SDLCState) (e : Event)
    (h : s.stage = pyOf "Revise User Stories") :
    (turnV2 s e).stage ∈ specSuccessorsWithStay s.stage := by
  obtain ⟨stg, ui, tl, us, dd, cd, tc, dec, fb, hist, dr⟩ := s
  simp only at h
  subst h
  have ht : stageTagOf (pyOf "Revise User Stories") = StageTag.revStories := by decide
  simp only [turnV2, ht]
  cases e
  all_goals try unfold V2.revise_user_stories
  all_goals try dsimp only
  all_goals repeat' split
  all_goals try dsimp only
  all_goals decide

/-- The final revision's turn lands in a declared successor when the record
sits at stage Create Design Docs. -/
theorem turnV2_spec_create_design_docs (s : SDLCState) (e : Event)
    (h : s.stage = pyOf "Create Design Docs") :
    (turnV2 s e).stage ∈ specSuccessorsWithStay s.stage := by
  obtain ⟨stg, ui, tl, us, dd, cd, tc, dec, fb, hist, dr⟩ := s
  simp only at h
  subst h
  have ht : stageTagOf (pyOf "Create Design Docs") = StageTag.createDesign := by decide
  simp only [turnV2, ht]
  cases e
  all_goals try unfold V2.create_design_docs
  all_goals try dsimp only
  all_goals repeat' split
  all_goals try dsimp only
  all_goals decide

/-- The final revision's turn lands in a declared successor when the record
sits at stage Design Review. -/
theorem turnV2_spec_design_review (s : SDLCState) (e : Event)
    (h : s.stage = pyOf "Design Review") :
    (turnV2 s e).stage ∈ specSuccessorsWithStay s.stage := by
  obtain ⟨stg, ui, tl, us, dd, cd, tc, dec, fb, hist, dr⟩ := s
  simp only at h
  subst h
  have ht : stageTagOf (pyOf "Design Review") = StageTag.designReview := by decide
  simp only [turnV2, ht]
  cases e
  all_goals try unfold V2.design_review decisionDispatch
  all_goals try dsimp only
  all_goals repeat' split
  all_goals try dsimp only
  all_goals decide

/-- The final revision's turn lands in a declared successor when the record
sits at stage Revise Design Docs. -/
theorem turnV2_spec_revise_design_docs (s : SDLCState) (e : Event)
    (h : s.stage = pyOf "Revise Design Docs") :
    (turnV2 s e).stage ∈ specSuccessorsWithStay s.stage := by
  obtain ⟨stg, ui, tl, us, dd, cd, tc, dec, fb, hist, dr⟩ := s
  simp only at h
  subst h
  have ht : stageTagOf (pyOf "Revise Design Docs") = StageTag.revDesign := by decide
  simp only [turnV2, ht]
  cases e
  all_goals try unfold V2.revise_design_docs
  all_goals try dsimp only
  all_goals repeat' split
  all_goals try dsimp only
  all_goals decide

/-- The final revision's turn lands in a declared successor when the record
sits at stage Generate Code. -/
theorem turnV2_spec_generate_code (s : SDLCState) (e : Event)
    (h : s.stage = pyOf "Generate Code") :
    (turnV2 s e).stage ∈ specSuccessorsWithStay s.stage := by
  obtain ⟨stg, ui, tl, us, dd, cd, tc, dec, fb, hist, dr⟩ := s
  simp only at h
  subst h
  have ht : stageTagOf (pyOf "Generate Code") = StageTag.genCode := by decide
  simp only [turnV2, ht]
  cases e
  all_goals try unfold V2.generate_code
  all_goals try dsimp only
  all_goals repeat' split
  all_goals try dsimp only
  all_goals decide

/-- The final revision's turn lands in a declared successor when the record
sits at stage Code Review. -/
theorem turnV2_spec_code_review (s : SDLCState) (e : Event)
    (h : s.stage = pyOf "Code Review") :
    (turnV2 s e).stage ∈ specSuccessorsWithStay s.stage := by
  obtain ⟨stg, ui, tl, us, dd, cd, tc, dec, fb, hist, dr⟩ := s
  simp only at h
  subst h
  have ht : stageTagOf (pyOf "Code Review") = StageTag.codeReviewTag := by decide
  simp only [turnV2, ht]
  cases e
  all_goals try unfold V2.code_review decisionDispatch
  all_goals try dsimp only
  all_goals repeat' split
  all_goals try dsimp only
  all_goals decide

/-- The final revision's turn lands in a declared successor when the record
sits at stage Fix Code Review. -/
theorem turnV2_spec_fix_code_review (s : SDLCState) (e : Event)
    (h : s.stage = pyOf "Fix Code Review") :
    (turnV2 s e).stage ∈ specSuccessorsWithStay s.stage := by
  obtain ⟨stg, ui, tl, us, dd, cd, tc, dec, fb, hist, dr⟩ := s
  simp only at h
  subst h
  have ht : stageTagOf (pyOf "Fix Code Review") = StageTag.fixCode := by decide
  simp only [turnV2, ht]
  cases e
  all_goals try unfold V2.fix_code_review
  all_goals try dsimp only
  all_goals repeat' split
  all_goals try dsimp only
  all_goals decide

/-- The final revision's turn lands in a declared successor when the record
sits at stage Security Review. -/
theorem turnV2_spec_security_review (s : SDLCState) (e : Event)
    (h : s.stage = pyOf "Security Review") :
    (turnV2 s e).stage ∈ specSuccessorsWithStay s.stage := by
  obtain ⟨stg, ui, tl, us, dd, cd, tc, dec, fb, hist, dr⟩ := s
  simp only at h
  subst h
  have ht : stageTagOf (pyOf "Security Review") = StageTag.secReview := by decide
  simp only [turnV2, ht]
  cases e
  all_goals try unfold V2.security_review decisionDispatch
  all_goals try dsimp only
  all_goals repeat' split
  all_goals try dsimp only
  all_goals decide

/-- The final revision's turn lands in a declared successor when the record
sits at stage Fix Security. -/
theorem turnV2_spec_fix_security (s : SDLCState) (e : Event)
    (h : s.stage = pyOf "Fix Security") :
    (turnV2 s e).stage ∈ specSuccessorsWithStay s.stage := by
  obtain ⟨stg, ui, tl, us, dd, cd, tc, dec, fb, hist, dr⟩ := s
  simp only at h
  subst h
  have ht : stageTagOf (pyOf "Fix Security") = StageTag.fixSec := by decide
  simp only [turnV2, ht]
  cases e
  all_goals try unfold V2.fix_security_issues
  all_goals try dsimp only
  all_goals repeat' split
  all_goals try dsimp only
  all_goals decide

/-- The final revision's turn lands in a declared successor when the record
sits at stage Write Test Cases. -/
theorem turnV2_spec_write_test_cases (s : SDLCState) (e : Event)
    (h : s.stage = pyOf "Write Test Cases") :
    (turnV2 s e).stage ∈ specSuccessorsWithStay s.stage := by
  obtain ⟨stg, ui, tl, us, dd, cd, tc, dec, fb, hist, dr⟩ := s
  simp only at h
  subst h
  have ht : stageTagOf (pyOf "Write Test Cases") = StageTag.writeTests := by decide
  simp only [turnV2, ht]
  cases e
  all_goals try unfold V2.write_test_cases
  all_goals try dsimp only
  all_goals repeat' split
  all_goals try dsimp only
  all_goals decide

/-- The final revision's turn lands in a declared successor when the record
sits at stage Test Case Review. -/
theorem turnV2_spec_test_case_review (s : SDLCState) (e : Event)
    (h : s.stage = pyOf "Test Case Review") :
    (turnV2 s e).stage ∈ specSuccessorsWithStay s.stage := by
  obtain ⟨stg, ui, tl, us, dd, cd, tc, dec, fb, hist, dr⟩ := s
  simp only at h
  subst h
  have ht : stageTagOf (pyOf "Test Case Review") = StageTag.testReview := by decide
  simp only [turnV2, ht]
  cases e
  all_goals try unfold V2.review_test_cases decisionDispatch
  all_goals try dsimp only
  all_goals repeat' split
  all_goals try dsimp only
  all_goals decide

/-- The final revision's turn lands in a declared successor when the record
sits at stage Fix Test Cases. -/
theorem turnV2_spec_fix_test_cases (s : SDLCState) (e : Event)
    (h : s.stage = pyOf "Fix Test Cases") :
    (turnV2 s e).stage ∈ specSuccessorsWithStay s.stage := by
  obtain ⟨stg, ui, tl, us, dd, cd, tc, dec, fb, hist, dr⟩ := s
  simp only at h
  subst h
  have ht : stageTagOf (pyOf "Fix Test Cases") = StageTag.fixTests := by decide
  simp only [turnV2, ht]
  cases e
  all_goals try unfold V2.fix_test_cases
  all_goals try dsimp only
  all_goals repeat' split
  all_goals try dsimp only
  all_goals decide

/-- The final revision's turn lands in a declared successor when the record
sits at stage QA Testing. -/
theorem turnV2_spec_qa_testing (s : SDLCState) (e : Event)
    (h : s.stage = pyOf "QA Testing") :
    (turnV2 s e).stage ∈ specSuccessorsWithStay s.stage := by
  obtain ⟨stg, ui, tl, us, dd, cd, tc, dec, fb, hist, dr⟩ := s
  simp only at h
  subst h
  have ht : stageTagOf (pyOf "QA Testing") = StageTag.qaTesting := by decide
  simp only [turnV2, ht]
  cases e
  all_goals try unfold V2.qa_testing
  all_goals try dsimp only
  all_goals repeat' split
  all_goals try dsimp only
  all_goals decide

/-- The final revision's turn lands in a declared successor when the record
sits at stage Deploy. -/
theorem turnV2_spec_deploy (s : SDLCState) (e : Event)
    (h : s.stage = pyOf "Deploy") :
    (turnV2 s e).stage ∈ specSuccessorsWithStay s.stage := by
  obtain ⟨stg, ui, tl, us, dd, cd, tc, dec, fb, hist, dr⟩ := s
  simp only at h
  subst h
  have ht : stageTagOf (pyOf "Deploy") = StageTag.deployTag := by decide
  simp only [turnV2, ht]
  cases e
  all_goals try unfold V2.deploy
  all_goals try dsimp only
  all_goals repeat' split
  all_goals try dsimp only
  all_goals decide

/-- The final revision's turn lands in a declared successor when the record
sits at stage Deployed. -/
theorem turnV2_spec_deployed (s : SDLCState) (e : Event)
    (h : s.stage = pyOf "Deployed") :
    (turnV2 s e).stage ∈ specSuccessorsWithStay s.stage := by
  obtain ⟨stg, ui, tl, us, dd, cd, tc, dec, fb, hist, dr⟩ := s
  simp only at h
  subst h
  have ht : stageTagOf (pyOf "Deployed") = StageTag.terminal := by decide
  simp only [turnV2, ht]
  cases e
  all_goals decide

/-- The final revision's turn lands in a declared successor when the record
sits at stage Deployment Failed. -/
theorem turnV2_spec_deployment_failed (s : SDLCState) (e : Event)
    (h : s.stage = pyOf "Deployment Failed") :
    (turnV2 s e).stage ∈ specSuccessorsWithStay s.stage := by
  obtain ⟨stg, ui, tl, us, dd, cd, tc, dec, fb, hist, dr⟩ := s
  simp only at h
  subst h
  have ht : stageTagOf (pyOf "Deployment Failed") = StageTag.terminal := by decide
  simp only [turnV2, ht]
  cases e
  all_goals decide

/-- C1 counterexample: in the first revision, a failed QA run transitions to
Code Review, which is not among QA Testing's declared successors in the
section-4 table (the table routes QA failure to code generation), so the
claim as stated fails on src/streamlit.py. -/
theorem claim1_cex_v1_qa_failure_leaves_table :
    let s0 : SDLCState :=
      { initState with stage := pyOf "QA Testing",
                       target_language := some (pyOf "python"),
                       code := some (pyOf "print(1)"),
                       test_cases := some (pyOf "assert True") }
    s0.stage ∈ stageNames ∧
      (turnV1 s0 (.auto (.ok (pyOf "FAIL: the tests are inadequate")))).stage =
        pyOf "Code Review" ∧
      (turnV1 s0 (.auto (.ok (pyOf "FAIL: the tests are inadequate")))).stage ∉
        specSuccessorsWithStay s0.stage := by
  decide

/-- C1 (amended): in the final revision (src/streamlit_final.py), one turn of
the engine — a decision-stage verdict or an automatic-stage handler run —
applied to a record at any declared stage produces a record whose stage is
one of that stage's declared successors in the section-4 table, self-loops
included; the first revision violates this only at QA Testing, whose failure
path goes to Code Review instead of Generate Code. -/
theorem claim1_turnV2_respects_table (s : SDLCState) (e : Event)
    (h : s.stage ∈ stageNames) :
    (turnV2 s e).stage ∈ specSuccessorsWithStay s.stage := by
  simp only [stageNames, List.mem_cons, List.not_mem_nil, or_false] at h
  rcases h with h | h | h | h | h | h | h | h | h | h | h | h | h | h | h | h | h | h | h
  · exact turnV2_spec_user_input s e h
  · exact turnV2_spec_generate_user_stories s e h
  · exact turnV2_spec_product_owner_review s e h
  · exact turnV2_spec_revise_user_stories s e h
  · exact turnV2_spec_create_design_docs s e h
  · exact turnV2_spec_design_review s e h
  · exact turnV2_spec_revise_design_docs s e h
  · exact turnV2_spec_generate_code s e h
  · exact turnV2_spec_code_review s e h
  · exact turnV2_spec_fix_code_review s e h
  · exact turnV2_spec_security_review s e h
  · exact turnV2_spec_fix_security s e h
  · exact turnV2_spec_write_test_cases s e h
  · exact turnV2_spec_test_case_review s e h
  · exact turnV2_spec_fix_test_cases s e h
  · exact turnV2_spec_qa_testing s e h
  · exact turnV2_spec_deploy s e h
  · exact turnV2_spec_deployed s e h
  · exact turnV2_spec_deployment_failed s e h

/-- C1 witness: the amended theorem applied at the initial record and the
start event. -/
theorem claim1_witness :
    (turnV2 initState (.start (pyOf "a todo app") (pyOf "Python"))).stage
      ∈ specSuccessorsWithStay initState.stage :=
  claim1_turnV2_respects_table initState (.start (pyOf "a todo app") (pyOf "Python")) (by decide)

/-- C2 counterexample: in the first revision, a QA run yielding
decision = failed routes the record to Code Review — a review stage — and
not to the code-generation stage, so the claim as stated fails on
src/streamlit.py. -/
theorem claim2_cex_v1_failed_qa_goes_to_review :
    let s0 : SDLCState :=
      { initState with stage := pyOf "QA Testing",
                       target_language := some (pyOf "python"),
                       code := some (pyOf "print(1)"),
                       test_cases := some (pyOf "assert True") }
    (V1.qa_testing s0 (.ok (pyOf "FAIL: the tests miss edge cases"))).decision
        = some (pyOf "failed") ∧
      (turnV1 s0 (.auto (.ok (pyOf "FAIL: the tests miss edge cases")))).stage
        = pyOf "Code Review" ∧
      pyOf "Code Review" ≠ pyOf "Generate Code" := by
  decide

/-- C2 (amended): in the final revision, whenever the QA handler yields
decision = failed — FAIL reply, unrecognized reply, or missing
code/tests — the next stage computed by the engine is Generate Code (the
code-generation stage), never Fix Code Review; the first revision instead
routes QA failures to Code Review. -/
theorem claim2_v2_failed_qa_routes_to_codegen (s : SDLCState) (r : LLMCall)
    (hstage : s.stage = pyOf "QA Testing")
    (hfail : (V2.qa_testing s r).decision = some (pyOf "failed")) :
    (turnV2 s (.auto r)).stage = pyOf "Generate Code" ∧
      (turnV2 s (.auto r)).stage ≠ pyOf "Fix Code Review" := by
  have ht : stageTagOf s.stage = StageTag.qaTesting := by rw [hstage]; decide
  have hne : ¬ ((V2.qa_testing s r).decision = some (pyOf "passed")) := by
    rw [hfail]
    decide
  have h1 : (turnV2 s (.auto r)).stage = pyOf "Generate Code" := by
    simp only [turnV2, ht]
    rw [if_neg hne]
  refine ⟨h1, ?_⟩
  rw [h1]
  decide

/-- C2 witness: a record at QA Testing with no code fails QA and the final
revision's engine routes it to Generate Code. -/
theorem claim2_witness :
    (turnV2 qaNoCodeRecord (.auto .uninit)).stage = pyOf "Generate Code" ∧
      (turnV2 qaNoCodeRecord (.auto .uninit)).stage ≠ pyOf "Fix Code Review" :=
  claim2_v2_failed_qa_routes_to_codegen qaNoCodeRecord .uninit (by decide) (by decide)

/-- C3 counterexample: the first revision's deploy deploys unconditionally —
entering Deploy with decision = failed still yields stage = Deployed, not
Deployment Failed, and the feedback field is untouched (no failure reason is
recorded), so the claim as stated fails on src/streamlit.py. -/
theorem claim3_cex_v1_deploy_ignores_decision :
    let s0 : SDLCState :=
      { initState with stage := pyOf "Deploy",
                       decision := some (pyOf "failed"),
                       feedback := some (pyOf "the tests are inadequate") }
    (V1.deploy s0).stage = pyOf "Deployed" ∧
      (V1.deploy s0).stage ≠ pyOf "Deployment Failed" ∧
      (V1.deploy s0).feedback = s0.feedback := by
  decide

/-- C3 (amended): in the final revision, the deploy operation entered with
decision ≠ passed and a present QA feedback yields stage = Deployment
Failed (not Deployed) and records the non-empty failure reason
"Deployment halted due to failed QA testing. Reason: " followed by the QA
feedback, quoting it; and the deploy operation reaches stage = Deployed only
when decision = passed.  The first revision's deploy has no such guard. -/
theorem claim3_v2_deploy_guarded_by_qa (s : SDLCState) (r : LLMCall) (f : PyStr)
    (hdec : s.decision ≠ some (pyOf "passed")) (hfb : s.feedback = some f) :
    ((V2.deploy s r).1.stage = pyOf "Deployment Failed" ∧
      (V2.deploy s r).1.stage ≠ pyOf "Deployed" ∧
      (V2.deploy s r).1.feedback =
        some (pyOf "Deployment halted due to failed QA testing. Reason: " ++ f) ∧
      pyOf "Deployment halted due to failed QA testing. Reason: " ++ f ≠ []) ∧
    (∀ (s2 : SDLCState) (r2 : LLMCall),
      (V2.deploy s2 r2).1.stage = pyOf "Deployed" → s2.decision = some (pyOf "passed")) := by
  constructor
  · have hred : V2.deploy s r =
        ({ s with stage := pyOf "Deployment Failed",
                  feedback := some (pyOf "Deployment halted due to failed QA testing. Reason: " ++ f) },
         false) := by
      unfold V2.deploy
      rw [if_pos hdec, hfb]
    rw [hred]
    refine ⟨rfl, ?_, rfl, ?_⟩
    · dsimp only
      decide
    · intro hnil
      have := congrArg List.length hnil
      simp [List.length_append] at this
      exact absurd this.1 (by decide)
  · intro s2 r2 hstage
    by_cases hd : s2.decision = some (pyOf "passed")
    · exact hd
    · exfalso
      unfold V2.deploy at hstage
      rw [if_pos hd] at hstage
      cases hfb2 : s2.feedback with
      | none =>
          rw [hfb2] at hstage
          dsimp only at hstage
          exact absurd hstage (by decide)
      | some f2 =>
          rw [hfb2] at hstage
          dsimp only at hstage
          exact absurd hstage (by decide)

/-- C3 witness: the amended theorem applied to a concrete record that enters
Deploy with a failed QA decision and recorded QA feedback. -/
theorem claim3_witness :
    ((V2.deploy deployFailedRecord .uninit).1.stage = pyOf "Deployment Failed" ∧
      (V2.deploy deployFailedRecord .uninit).1.stage ≠ pyOf "Deployed" ∧
      (V2.deploy deployFailedRecord .uninit).1.feedback =
        some (pyOf "Deployment halted due to failed QA testing. Reason: " ++ pyOf "bad tests") ∧
      pyOf "Deployment halted due to failed QA testing. Reason: " ++ pyOf "bad tests" ≠ []) ∧
    (∀ (s2 : SDLCState) (r2 : LLMCall),
      (V2.deploy s2 r2).1.stage = pyOf "Deployed" → s2.decision = some (pyOf "passed")) :=
  claim3_v2_deploy_guarded_by_qa deployFailedRecord .uninit (pyOf "bad tests")
    (by decide) rfl

/-- C4 counterexample: in the final revision, the no-feedback skip of
revise_design_docs appends a history entry, so the length of history is not
left unchanged. -/
theorem claim4_cex_v2_skip_appends_history :
    (V2.revise_design_docs skipRecord .uninit).stage = pyOf "Design Review" ∧
      (V2.revise_design_docs skipRecord .uninit).history.length = 1 ∧
      skipRecord.history.length = 0 := by
  decide

/-- C4 (amended): every revision handler applied to a record with absent or
empty feedback and a present target language (the Fix* handlers dereference
the language for a code tag before the feedback check) performs no
Generation Service call — the result does not depend on the service outcome
— and routes the record to its review stage leaving every other field
unchanged, except that the final revision's revise_design_docs,
fix_code_review and fix_test_cases additionally append exactly one skip
note to history. -/
theorem claim4_noop_skip (s : SDLCState) (l : PyStr) (hl : s.target_language = some l)
    (hb : truthyOpt s.feedback = false) : ∀ r : LLMCall,
    V1.revise_user_stories s r = { s with stage := pyOf "Product Owner Review" } ∧
    V1.revise_design_docs s r = { s with stage := pyOf "Design Review" } ∧
    V1.fix_code_review s r = { s with stage := pyOf "Code Review" } ∧
    V1.fix_security_issues s r = { s with stage := pyOf "Security Review" } ∧
    V1.fix_test_cases s r = { s with stage := pyOf "Test Case Review" } ∧
    V2.revise_user_stories s r = { s with stage := pyOf "Product Owner Review" } ∧
    V2.revise_design_docs s r = { s with
      stage := pyOf "Design Review"
      history := s.history ++
        [(pyOf "revise_design_docs", pyOf "No feedback provided. Skipping design document revision.")] } ∧
    V2.fix_code_review s r = { s with
      stage := pyOf "Code Review"
      history := s.history ++
        [(pyOf "fix_code_review", pyOf "No feedback provided. Skipping code fixing.")] } ∧
    V2.fix_security_issues s r = { s with stage := pyOf "Security Review" } ∧
    V2.fix_test_cases s r = { s with
      stage := pyOf "Test Case Review"
      history := s.history ++
        [(pyOf "fix_test_cases", pyOf "No feedback provided. Skipping test case fixing.")] } := by
  intro r
  refine ⟨?_, ?_, ?_, ?_, ?_, ?_, ?_, ?_, ?_, ?_⟩ <;>
    simp [V1.revise_user_stories, V1.revise_design_docs, V1.fix_code_review,
      V1.fix_security_issues, V1.fix_test_cases, V2.revise_user_stories,
      V2.revise_design_docs, V2.fix_code_review, V2.fix_security_issues,
      V2.fix_test_cases, hl, hb]

/-- C4 witness: the amended theorem applied to a concrete feedback-less
record (first conjunct shown). -/
theorem claim4_witness :
    V1.revise_user_stories skipRecord .uninit =
      { skipRecord with stage := pyOf "Product Owner Review" } :=
  (claim4_noop_skip skipRecord (pyOf "python") rfl rfl .uninit).1

/-- C5 counterexample: generation stages do not reset decision/feedback —
create_design_docs completes with the approving decision that admitted it
still in place, so a record that completes a generation stage need not have
decision = none. -/
theorem claim5_cex_generation_keeps_decision :
    let s0 : SDLCState :=
      { reviewRecord with stage := pyOf "Create Design Docs", decision := some (pyOf "approved") }
    (V1.create_design_docs s0 (.ok (pyOf "the design"))).stage = pyOf "Design Review" ∧
      (V1.create_design_docs s0 (.ok (pyOf "the design"))).decision = some (pyOf "approved") ∧
      ¬ (V1.create_design_docs s0 (.ok (pyOf "the design"))).decision = none := by
  decide

/-- C5 (amended): only the revision handlers reset decision to none and
feedback to absent, and they do so when they actually perform a revision
(service reply received, non-empty feedback, language present for the Fix*
handlers); the generation handlers (user stories, design docs, code, tests)
leave decision and feedback exactly as they found them in every branch, in
both revisions. -/
theorem claim5_reset_only_in_revision :
    (∀ (s : SDLCState) (l f c : PyStr), s.target_language = some l →
      s.feedback = some f → f ≠ [] →
      ((V1.revise_user_stories s (.ok c)).decision = none ∧
        (V1.revise_user_stories s (.ok c)).feedback = none) ∧
      ((V1.revise_design_docs s (.ok c)).decision = none ∧
        (V1.revise_design_docs s (.ok c)).feedback = none) ∧
      ((V1.fix_code_review s (.ok c)).decision = none ∧
        (V1.fix_code_review s (.ok c)).feedback = none) ∧
      ((V1.fix_security_issues s (.ok c)).decision = none ∧
        (V1.fix_security_issues s (.ok c)).feedback = none) ∧
      ((V1.fix_test_cases s (.ok c)).decision = none ∧
        (V1.fix_test_cases s (.ok c)).feedback = none) ∧
      ((V2.revise_user_stories s (.ok c)).decision = none ∧
        (V2.revise_user_stories s (.ok c)).feedback = none) ∧
      ((V2.revise_design_docs s (.ok c)).decision = none ∧
        (V2.revise_design_docs s (.ok c)).feedback = none) ∧
      ((V2.fix_code_review s (.ok c)).decision = none ∧
        (V2.fix_code_review s (.ok c)).feedback = none) ∧
      ((V2.fix_security_issues s (.ok c)).decision = none ∧
        (V2.fix_security_issues s (.ok c)).feedback = none) ∧
      ((V2.fix_test_cases s (.ok c)).decision = none ∧
        (V2.fix_test_cases s (.ok c)).feedback = none)) ∧
    (∀ (s : SDLCState) (r : LLMCall),
      (V1.generate_user_stories s r).decision = s.decision ∧
      (V1.generate_user_stories s r).feedback = s.feedback ∧
      (V1.create_design_docs s r).decision = s.decision ∧
      (V1.create_design_docs s r).feedback = s.feedback ∧
      (V1.generate_code s r).decision = s.decision ∧
      (V1.generate_code s r).feedback = s.feedback ∧
      (V1.write_test_cases s r).decision = s.decision ∧
      (V1.write_test_cases s r).feedback = s.feedback ∧
      (V2.generate_user_stories s r).decision = s.decision ∧
      (V2.generate_user_stories s r).feedback = s.feedback ∧
      (V2.create_design_docs s r).decision = s.decision ∧
      (V2.create_design_docs s r).feedback = s.feedback ∧
      (V2.generate_code s r).decision = s.decision ∧
      (V2.generate_code s r).feedback = s.feedback ∧
      (V2.write_test_cases s r).decision = s.decision ∧
      (V2.write_test_cases s r).feedback = s.feedback) := by
  constructor
  · intro s l f c hl hf hfne
    have hb : truthyOpt s.feedback = true := by
      rw [hf]
      cases f with
      | nil => exact absurd rfl hfne
      | cons a t => rfl
    refine ⟨?_, ?_, ?_, ?_, ?_, ?_, ?_, ?_, ?_, ?_⟩ <;>
      simp [V1.revise_user_stories, V1.revise_design_docs, V1.fix_code_review,
        V1.fix_security_issues, V1.fix_test_cases, V2.revise_user_stories,
        V2.revise_design_docs, V2.fix_code_review, V2.fix_security_issues,
        V2.fix_test_cases, hl, hb]
  · intro s r
    refine ⟨?_, ?_, ?_, ?_, ?_, ?_, ?_, ?_, ?_, ?_, ?_, ?_, ?_, ?_, ?_, ?_⟩ <;>
      (cases r <;>
        simp only [V1.generate_user_stories, V1.create_design_docs, V1.generate_code,
          V1.write_test_cases, V2.generate_user_stories, V2.create_design_docs,
          V2.generate_code, V2.write_test_cases] <;>
        repeat' split <;>
        rfl)

/-- C5 witness: the amended theorem at a concrete revision record (first
pair) and a concrete generation record (first pair of the second part). -/
theorem claim5_witness :
    ((V1.revise_user_stories fbRecord (.ok (pyOf "revised stories"))).decision = none ∧
      (V1.revise_user_stories fbRecord (.ok (pyOf "revised stories"))).feedback = none) ∧
    (V1.generate_user_stories reviewRecord .uninit).decision = reviewRecord.decision :=
  ⟨(claim5_reset_only_in_revision.1 fbRecord (pyOf "python") (pyOf "needs work")
      (pyOf "revised stories") rfl rfl (by decide)).1,
   (claim5_reset_only_in_revision.2 reviewRecord .uninit).1⟩

/-- C6: at Test Case Review the parser tests exact equality with `approved`,
so the recognized rationale shape `approved: <rationale>` — which the final
revision's own prompt requests — is routed to the feedback branch, unlike
at Code Review (and the other review stages), where the same reply is
accepted via the prefix test; the bare word `approved` is still accepted at
Test Case Review.  This contradicts the claim and the final revision's own
prompt, in both revisions. -/
theorem claim6_test_review_rejects_approved_rationale :
    (V2.review_test_cases reviewRecord (.ok (pyOf "approved: good coverage"))).decision
        = some (pyOf "feedback") ∧
      (V1.review_test_cases reviewRecord (.ok (pyOf "approved: good coverage"))).decision
        = some (pyOf "feedback") ∧
      (V2.code_review reviewRecord (.ok (pyOf "approved: good coverage"))).decision
        = some (pyOf "approved") ∧
      (V2.code_review reviewRecord (.ok (pyOf "approved: good coverage"))).feedback = none ∧
      (V1.security_review reviewRecord (.ok (pyOf "approved: good coverage"))).decision
        = some (pyOf "approved") ∧
      (V2.review_test_cases reviewRecord (.ok (pyOf "approved"))).decision
        = some (pyOf "approved") ∧
      (V2.review_test_cases reviewRecord (.ok (pyOf "approved"))).feedback = none := by
  decide

/-- C7 counterexample: the review handlers lowercase (and strip) the reply
before storing it, so for the reply "MAYBE OK" the decision is feedback but
the raw response text is not preserved anywhere in the feedback field —
only its lowercased form is. -/
theorem claim7_cex_raw_text_lowercased :
    (V1.code_review reviewRecord (.ok (pyOf "MAYBE OK"))).decision = some (pyOf "feedback") ∧
      ¬ ∃ pre post, (V1.code_review reviewRecord (.ok (pyOf "MAYBE OK"))).feedback =
          some (pre ++ pyOf "MAYBE OK" ++ post) := by
  constructor
  · decide
  · rintro ⟨pre, post, h⟩
    have hM : (V1.code_review reviewRecord (.ok (pyOf "MAYBE OK"))).feedback =
        some (pyOf "LLM response unclear (python Code Review), please manually review and revise: \x27maybe ok\x27") := by
      decide
    rw [hM] at h
    have h2 : pyOf "LLM response unclear (python Code Review), please manually review and revise: \x27maybe ok\x27"
        = pre ++ pyOf "MAYBE OK" ++ post := Option.some.inj h
    have h3 : listContains (pyOf "MAYBE OK") (pre ++ pyOf "MAYBE OK" ++ post) = true :=
      listContains_append pre (pyOf "MAYBE OK") post
    rw [← h2] at h3
    exact absurd h3 (by decide)

/-- C7 (amended): at every review stage in both revisions, a Generation
Service reply matching neither the `approved` prefix nor the `feedback:`
prefix (after stripping and lowercasing) yields decision = feedback — never
approved — and the normalized (stripped, lowercased) response text is
preserved verbatim inside the stored feedback; the raw text itself is
preserved exactly when it is already stripped and lowercase. -/
theorem claim7_ambiguous_reply_is_feedback (s : SDLCState) (l r : PyStr)
    (hl : s.target_language = some l) (hcode : truthyOpt s.code = true)
    (hna : startswith (lower (strip r)) (pyOf "approved") = false)
    (hnf : startswith (lower (strip r)) (pyOf "feedback:") = false) :
    ((V1.product_owner_review s (.ok r)).decision = some (pyOf "feedback") ∧
      ∃ pre post, (V1.product_owner_review s (.ok r)).feedback =
        some (pre ++ lower (strip r) ++ post)) ∧
    ((V1.design_review s (.ok r)).decision = some (pyOf "feedback") ∧
      ∃ pre post, (V1.design_review s (.ok r)).feedback =
        some (pre ++ lower (strip r) ++ post)) ∧
    ((V1.code_review s (.ok r)).decision = some (pyOf "feedback") ∧
      ∃ pre post, (V1.code_review s (.ok r)).feedback =
        some (pre ++ lower (strip r) ++ post)) ∧
    ((V1.security_review s (.ok r)).decision = some (pyOf "feedback") ∧
      ∃ pre post, (V1.security_review s (.ok r)).feedback =
        some (pre ++ lower (strip r) ++ post)) ∧
    ((V1.review_test_cases s (.ok r)).decision = some (pyOf "feedback") ∧
      ∃ pre post, (V1.review_test_cases s (.ok r)).feedback =
        some (pre ++ lower (strip r) ++ post)) ∧
    ((V2.product_owner_review s (.ok r)).decision = some (pyOf "feedback") ∧
      ∃ pre post, (V2.product_owner_review s (.ok r)).feedback =
        some (pre ++ lower (strip r) ++ post)) ∧
    ((V2.design_review s (.ok r)).decision = some (pyOf "feedback") ∧
      ∃ pre post, (V2.design_review s (.ok r)).feedback =
        some (pre ++ lower (strip r) ++ post)) ∧
    ((V2.code_review s (.ok r)).decision = some (pyOf "feedback") ∧
      ∃ pre post, (V2.code_review s (.ok r)).feedback =
        some (pre ++ lower (strip r) ++ post)) ∧
    ((V2.security_review s (.ok r)).decision = some (pyOf "feedback") ∧
      ∃ pre post, (V2.security_review s (.ok r)).feedback =
        some (pre ++ lower (strip r) ++ post)) ∧
    ((V2.review_test_cases s (.ok r)).decision = some (pyOf "feedback") ∧
      ∃ pre post, (V2.review_test_cases s (.ok r)).feedback =
        some (pre ++ lower (strip r) ++ post)) := by
  have hne : lower (strip r) ≠ pyOf "approved" := by
    intro he
    rw [he] at hna
    exact absurd hna (by decide)
  refine ⟨⟨?_, ?_⟩, ⟨?_, ?_⟩, ⟨?_, ?_⟩, ⟨?_, ?_⟩, ⟨?_, ?_⟩,
    ⟨?_, ?_⟩, ⟨?_, ?_⟩, ⟨?_, ?_⟩, ⟨?_, ?_⟩, ⟨?_, ?_⟩⟩
  · simp [V1.product_owner_review, hna, hnf]
  · exact ⟨pyOf "LLM response unclear, please manually review and revise: \x27", pyOf "\x27",
      by simp [V1.product_owner_review, hna, hnf]⟩
  · simp [V1.design_review, hna, hnf]
  · exact ⟨pyOf "LLM response unclear, please manually review and revise: \x27", pyOf "\x27",
      by simp [V1.design_review, hna, hnf]⟩
  · simp [V1.code_review, hna, hnf]
  · exact ⟨pyOf "LLM response unclear (" ++ l ++ pyOf " Code Review), please manually review and revise: \x27",
      pyOf "\x27", by simp [V1.code_review, fstr, hl, hna, hnf, List.append_assoc]⟩
  · simp [V1.security_review, hcode, hl, hna, hnf]
  · exact ⟨pyOf "Potential security concerns identified (" ++ l ++ pyOf "): ", [],
      by simp [V1.security_review, hcode, hl, hna, hnf, List.append_assoc]⟩
  · simp [V1.review_test_cases, hl, hne, hnf]
  · exact ⟨pyOf "LLM response unclear (" ++ l ++ pyOf " Test Review), please manually review and revise: \x27",
      pyOf "\x27", by simp [V1.review_test_cases, hl, hne, hnf, List.append_assoc]⟩
  · simp [V2.product_owner_review, hna, hnf]
  · exact ⟨pyOf "LLM response unclear, please manually review and revise: \x27", pyOf "\x27",
      by simp [V2.product_owner_review, hna, hnf]⟩
  · simp [V2.design_review, hna, hnf]
  · exact ⟨pyOf "LLM response unclear, please manually review and revise: \x27", pyOf "\x27",
      by simp [V2.design_review, hna, hnf]⟩
  · simp [V2.code_review, hna, hnf]
  · exact ⟨pyOf "LLM response unclear (" ++ l ++ pyOf " Code Review), please manually review and revise: \x27",
      pyOf "\x27", by simp [V2.code_review, fstr, hl, hna, hnf, List.append_assoc]⟩
  · simp [V2.security_review, hcode, hl, hna, hnf]
  · exact ⟨pyOf "Potential security concerns identified (" ++ l ++ pyOf "): ", [],
      by simp [V2.security_review, hcode, hl, hna, hnf, List.append_assoc]⟩
  · simp [V2.review_test_cases, hl, hne, hnf]
  · exact ⟨pyOf "LLM response unclear (" ++ l ++ pyOf " Test Review), please manually review and revise: \x27",
      pyOf "\x27", by simp [V2.review_test_cases, hl, hne, hnf, List.append_assoc]⟩

/-- C7 witness: the amended theorem at a concrete record and the reply
"maybe ok" (already stripped and lowercase, so the preserved text is the raw
text), first review stage shown. -/
theorem claim7_witness :
    (V1.product_owner_review reviewRecord (.ok (pyOf "maybe ok"))).decision
      = some (pyOf "feedback") :=
  (claim7_ambiguous_reply_is_feedback reviewRecord (pyOf "python") (pyOf "maybe ok")
    rfl rfl (by decide) (by decide)).1.1

/-- C8: in the final revision, when the Generation Service call inside
qa_testing raises (with code and tests present, so the call is reached),
the handler stores decision = "error" — a value outside the decision domain
declared by the SDLCState Literal type — and the QA dispatch then treats
the record exactly like a failed QA outcome, routing it to Generate Code. -/
theorem claim8_qa_exception_error_decision (s : SDLCState) (e : PyStr)
    (hc : truthyOpt s.code = true) (ht : truthyOpt s.test_cases = true)
    (hstage : s.stage = pyOf "QA Testing") :
    (V2.qa_testing s (.raised e)).decision = some (pyOf "error") ∧
      pyOf "error" ∉ declaredDecisions ∧
      (turnV2 s (.auto (.raised e))).stage = pyOf "Generate Code" := by
  have hd : (V2.qa_testing s (.raised e)).decision = some (pyOf "error") := by
    simp [V2.qa_testing, hc, ht]
  refine ⟨hd, by decide, ?_⟩
  have htag : stageTagOf s.stage = StageTag.qaTesting := by rw [hstage]; decide
  have hne : ¬ ((V2.qa_testing s (.raised e)).decision = some (pyOf "passed")) := by
    rw [hd]
    decide
  simp only [turnV2, htag]
  rw [if_neg hne]

/-- C8 witness: the theorem at a concrete QA-ready record and a concrete
exception message. -/
theorem claim8_witness :
    (V2.qa_testing qaReadyRecord (.raised (pyOf "rate limit"))).decision = some (pyOf "error") ∧
      pyOf "error" ∉ declaredDecisions ∧
      (turnV2 qaReadyRecord (.auto (.raised (pyOf "rate limit")))).stage = pyOf "Generate Code" :=
  claim8_qa_exception_error_decision qaReadyRecord (pyOf "rate limit") rfl rfl rfl

/-- Every branch of the first revision's dispatch and of its handlers leaves
the history field untouched: src/streamlit.py contains no append to
history anywhere. -/
theorem turnV1_preserves_history (s : SDLCState) (e : Event) :
    (turnV1 s e).history = s.history := by
  unfold turnV1 decisionDispatch V1.generate_user_stories V1.product_owner_review
    V1.revise_user_stories V1.create_design_docs V1.design_review V1.revise_design_docs
    V1.generate_code V1.code_review V1.fix_code_review V1.security_review
    V1.fix_security_issues V1.write_test_cases V1.review_test_cases V1.fix_test_cases
    V1.qa_testing V1.deploy
  dsimp only
  repeat' split
  all_goals rfl

/-- C9: in the first revision no stage handler or UI branch ever appends to
history: every record reachable from the initial record by turns and resets
has history = [], so the audit trail is never populated. -/
theorem claim9_v1_history_always_empty (s : SDLCState) (h : ReachableV1 s) :
    s.history = [] := by
  induction h with
  | init => rfl
  | step s2 e _ ih => rw [turnV1_preserves_history]; exact ih
  | reset s2 _ _ => rfl

/-- C9 witness: the theorem at the initial record. -/
theorem claim9_witness : initState.history = [] :=
  claim9_v1_history_always_empty initState ReachableV1.init

/-- C10: clean_llm_code_output undoes Markdown code fencing: for a body
with no triple-backtick and a non-empty language name L, cleaning the text
fenced by the lowercased language tag (with language L supplied) returns
the body stripped of surrounding whitespace, and likewise for a bare fence
with no language supplied. -/
theorem claim10_clean_round_trip (s L : PyStr)
    (_hfence : listContains (pyOf "```") s = false) (hL : L ≠ []) :
    clean_llm_code_output (pyOf "```" ++ lower L ++ pyOf "\n" ++ s ++ pyOf "\n" ++ pyOf "```")
        (some L) = strip s ∧
      clean_llm_code_output (pyOf "```" ++ pyOf "\n" ++ s ++ pyOf "\n" ++ pyOf "```")
        none = strip s :=
  ⟨clean_lang_fence s L hL, clean_bare_fence s⟩

/-- C10 witness: the theorem at a concrete body and language. -/
theorem claim10_witness :
    clean_llm_code_output
        (pyOf "```" ++ lower (pyOf "Python") ++ pyOf "\n" ++ pyOf " print(1) " ++ pyOf "\n" ++ pyOf "```")
        (some (pyOf "Python")) = strip (pyOf " print(1) ") ∧
      clean_llm_code_output
        (pyOf "```" ++ pyOf "\n" ++ pyOf " print(1) " ++ pyOf "\n" ++ pyOf "```")
        none = strip (pyOf " print(1) ") :=
  claim10_clean_round_trip (pyOf " print(1) ") (pyOf "Python") (by decide) (by decide)
